import Mathlib

/-!
Shallow embedding of the ServiceMonitorRaspberrypi repository (src/state.py and
src/checker.py), together with theorems settling the frozen claims about the
State & Alert Decision Engine and the Health Check Engine.

Modelling conventions:
* Instants (Python `datetime` values) are modelled as `Int` epoch microseconds;
  `datetime.isoformat()` is modelled by `toString` on that integer (an injective
  rendering of the instant, standing for the ISO string stored in TEXT columns).
* SQLite tables are modelled as Lean lists of rows; SQL `ORDER BY`/`LIMIT`
  queries sort explicitly with `List.insertionSort` (a stable sort, matching
  SQLite/Python ordering behaviour on the keys used here).
* Machine integers are `Nat`/`Int`; counters in the database are `Nat`.
-/

/-- The columns of `service_state` read by `StateStore.evaluate`
(`SELECT status, error_count, alerted, first_error_at ...`). -/
structure PrevRow where
  status : String
  error_count : Nat
  alerted : Nat
  first_error_at : Option String
deriving Repr, DecidableEq

/-- A full `service_state` row as written by `StateStore.evaluate`. -/
structure ServiceRow where
  status : String
  message : String
  error_count : Nat
  alerted : Nat
  last_checked : Option String
  first_error_at : Option String
deriving Repr, DecidableEq

/-- `checker.CheckResult`: outcome of one probe.  `checked_at` is the probe
instant in epoch microseconds (standing for the `datetime`). -/
structure CheckResult where
  service_name : String
  ok : Bool
  message : String
  checked_at : Int
deriving Repr, DecidableEq

/-- `state.StateChange`: the transition descriptor returned by `evaluate`. -/
structure StateChange where
  service_name : String
  current_ok : Bool
  message : String
  error_count : Nat
  should_alert : Bool
  is_recovery : Bool
  already_alerted : Bool
deriving Repr, DecidableEq

/-- Python `x or y` for an optional TEXT column: `None` and the empty string
are falsy, any other string is kept (src/state.py line 101). -/
def orStr : Option String → String → String
  | none, d => d
  | some s, d => if s = "" then d else s

/-- The implicit default row used when no previous row exists
(src/state.py line 73). -/
def defaultPrevRow : PrevRow := ⟨"ok", 0, 0, none⟩

/-- Pure core of `StateStore.evaluate` (src/state.py lines 57-126): given the
previously stored columns (or `none` when the service has no row yet), the
fresh probe result and the consecutive-error threshold, it returns the row
persisted by the UPSERT and the returned `StateChange`. -/
def evaluate (row? : Option PrevRow) (result : CheckResult) (threshold : Nat) :
    ServiceRow × StateChange :=
  let now_str := toString result.checked_at
  let prev := row?.getD defaultPrevRow
  if result.ok then
    let is_recovery : Bool := (prev.status != "ok") && decide (threshold ≤ prev.error_count)
    (⟨"ok", result.message, 0, 0, some now_str, none⟩,
     ⟨result.service_name, true, result.message, 0, false, is_recovery, false⟩)
  else
    let new_error_count := prev.error_count + 1
    let new_first_error := orStr prev.first_error_at now_str
    let should_alert : Bool := decide (threshold ≤ new_error_count) && decide (prev.alerted = 0)
    let already_alerted : Bool := decide (prev.alerted = 1)
    let new_alerted : Nat := if should_alert || already_alerted then 1 else 0
    (⟨"error", result.message, new_error_count, new_alerted, some now_str, some new_first_error⟩,
     ⟨result.service_name, false, result.message, new_error_count, should_alert, false,
      already_alerted⟩)

/-- C1: on a failed result, `evaluate` returns and persists the claimed
fields: the error count is the previous one plus one; `first_error_at` is kept
when already a non-empty string and otherwise set to the result's instant;
`should_alert` holds iff the new count reaches the threshold and the previous
alerted flag was 0; `already_alerted` holds iff the previous alerted flag was
1; and the stored alerted flag becomes 1 iff `should_alert` or
`already_alerted`, otherwise 0. -/
theorem evaluate_failure_fields (prev : PrevRow) (result : CheckResult) (threshold : Nat)
    (hfail : result.ok = false) :
    let out := evaluate (some prev) result threshold
    out.2.error_count = prev.error_count + 1 ∧
    out.1.error_count = prev.error_count + 1 ∧
    out.1.first_error_at =
      some (match prev.first_error_at with
            | none => toString result.checked_at
            | some s => if s = "" then toString result.checked_at else s) ∧
    (out.2.should_alert = true ↔ (threshold ≤ prev.error_count + 1 ∧ prev.alerted = 0)) ∧
    (out.2.already_alerted = true ↔ prev.alerted = 1) ∧
    (out.1.alerted = 1 ↔ (out.2.should_alert = true ∨ out.2.already_alerted = true)) ∧
    (out.1.alerted = 1 ∨ out.1.alerted = 0) := by
  simp only [evaluate, hfail, Bool.false_eq_true, if_false, Option.getD_some]
  refine ⟨trivial, trivial, ?_, ?_, ?_, ?_, ?_⟩
  · cases h : prev.first_error_at with
    | none => simp [orStr]
    | some s => by_cases hs : s = "" <;> simp [orStr, hs]
  · simp
  · simp
  · by_cases h1 : threshold ≤ prev.error_count + 1 <;>
      by_cases h2 : prev.alerted = 0 <;>
      by_cases h3 : prev.alerted = 1 <;>
      simp [h1, h2, h3]
  · by_cases h1 : threshold ≤ prev.error_count + 1 <;>
      by_cases h2 : prev.alerted = 0 <;>
      by_cases h3 : prev.alerted = 1 <;>
      simp [h1, h2, h3]

/-- Witness for `evaluate_failure_fields` at a concrete failed result. -/
theorem evaluate_failure_fields_witness :
    (evaluate (some ⟨"error", 1, 0, some "2026"⟩)
        ⟨"svc", false, "HTTP 500", 1000⟩ 2).2.should_alert = true := by
  have h := evaluate_failure_fields ⟨"error", 1, 0, some "2026"⟩
    ⟨"svc", false, "HTTP 500", 1000⟩ 2 rfl
  exact h.2.2.2.1.mpr (by decide)

/-- C2: on a successful result, `evaluate` reports a recovery iff the previous
status was not ok and the previous error count had reached the threshold,
resets the stored row to `(ok, 0, 0, no first error)` with updated message and
last-checked, and never asks for an alert; a missing previous row behaves
exactly like the default row `(ok, 0, 0, none)`. -/
theorem evaluate_success_recovery (row? : Option PrevRow) (result : CheckResult)
    (threshold : Nat) (hok : result.ok = true) :
    let out := evaluate row? result threshold
    let prev := row?.getD defaultPrevRow
    (out.2.is_recovery = true ↔ (prev.status ≠ "ok" ∧ threshold ≤ prev.error_count)) ∧
    out.1 = ⟨"ok", result.message, 0, 0, some (toString result.checked_at), none⟩ ∧
    out.2.should_alert = false ∧
    (∀ (r : CheckResult) (t : Nat), evaluate none r t = evaluate (some defaultPrevRow) r t) := by
  simp only [evaluate, hok, if_true]
  refine ⟨?_, trivial, trivial, fun r t => rfl⟩
  by_cases h1 : (row?.getD defaultPrevRow).status = "ok" <;>
    by_cases h2 : threshold ≤ (row?.getD defaultPrevRow).error_count <;>
    simp [h1, h2]

/-- Witness for `evaluate_success_recovery` at a concrete successful result. -/
theorem evaluate_success_recovery_witness :
    (evaluate (some ⟨"error", 3, 1, some "t"⟩) ⟨"svc", true, "HTTP 200", 42⟩ 2).2.is_recovery
      = true := by
  have h := evaluate_success_recovery (some ⟨"error", 3, 1, some "t"⟩)
    ⟨"svc", true, "HTTP 200", 42⟩ 2 rfl
  exact h.1.mpr (by decide)

/-- C10: a failed result never reports a recovery, and a successful result
never reports `already_alerted`, whatever the previous row and threshold. -/
theorem evaluate_polarity (row? : Option PrevRow) (r : CheckResult) (threshold : Nat) :
    (evaluate row? { r with ok := false } threshold).2.is_recovery = false ∧
    (evaluate row? { r with ok := true } threshold).2.already_alerted = false := by
  constructor <;> simp [evaluate]

/-- The four columns the next `evaluate` reads back from a stored row. -/
def rowToPrev (row : ServiceRow) : PrevRow :=
  ⟨row.status, row.error_count, row.alerted, row.first_error_at⟩

/-- Stored columns after evaluating a sequence of probe results in order for
one service, starting from no stored row. -/
def runResults (threshold : Nat) (results : List CheckResult) : Option PrevRow :=
  results.foldl (fun row? r => some (rowToPrev (evaluate row? r threshold).1)) none

/-- The stored columns read by the next evaluation (default row when the
sequence was empty). -/
def storedPrev (threshold : Nat) (rs : List CheckResult) : PrevRow :=
  (runResults threshold rs).getD defaultPrevRow

/-- Length of the maximal all-failure block at the head of a result list. -/
def leadingFails : List Bool → Nat
  | [] => 0
  | ok :: rest => if ok then 0 else leadingFails rest + 1

/-- Length of the trailing run of consecutive failures of a chronologically
ordered result list. -/
def trailingFails (l : List Bool) : Nat := leadingFails l.reverse

theorem trailingFails_append (l : List Bool) (b : Bool) :
    trailingFails (l ++ [b]) = if b then 0 else trailingFails l + 1 := by
  simp [trailingFails, List.reverse_append, leadingFails]

theorem storedPrev_append (threshold : Nat) (rs : List CheckResult) (r : CheckResult) :
    storedPrev threshold (rs ++ [r]) =
      rowToPrev (evaluate (runResults threshold rs) r threshold).1 := by
  simp [storedPrev, runResults, List.foldl_append]

theorem runResults_invariant (threshold : Nat) (hT : 1 ≤ threshold)
    (rs : List CheckResult) :
    (storedPrev threshold rs).error_count = trailingFails (rs.map (·.ok)) ∧
    ((storedPrev threshold rs).alerted = 1 ↔ threshold ≤ trailingFails (rs.map (·.ok))) ∧
    ((storedPrev threshold rs).alerted = 0 ∨ (storedPrev threshold rs).alerted = 1) := by
  induction rs using List.reverseRecOn with
  | nil =>
      refine ⟨rfl, ?_, Or.inl rfl⟩
      show (0 : Nat) = 1 ↔ threshold ≤ 0
      omega
  | append_singleton rs r ih =>
      obtain ⟨ih1, ih2, ih3⟩ := ih
      rw [storedPrev_append]
      have hmap : (rs ++ [r]).map (·.ok) = rs.map (·.ok) ++ [r.ok] := by simp
      rw [hmap, trailingFails_append]
      have hprev : (runResults threshold rs).getD defaultPrevRow = storedPrev threshold rs := rfl
      cases hok : r.ok with
      | true =>
          simp only [evaluate, hok, if_true, if_pos, rowToPrev]
          refine ⟨trivial, ?_, Or.inl trivial⟩
          omega
      | false =>
          simp only [evaluate, hok, Bool.false_eq_true, if_false, rowToPrev, hprev]
          refine ⟨by rw [ih1], ?_, ?_⟩
          · by_cases h1 : threshold ≤ (storedPrev threshold rs).error_count + 1 <;>
              by_cases h2 : (storedPrev threshold rs).alerted = 0 <;>
              by_cases h3 : (storedPrev threshold rs).alerted = 1 <;>
              rw [ih1] at h1 <;> simp_all <;> omega
          · by_cases h1 : threshold ≤ (storedPrev threshold rs).error_count + 1 <;>
              by_cases h2 : (storedPrev threshold rs).alerted = 0 <;>
              by_cases h3 : (storedPrev threshold rs).alerted = 1 <;>
              simp [h1, h2, h3]

/-- C3: for any probe-result sequence evaluated in order from the default row
with threshold `T ≥ 1`, the next evaluation asks for an alert exactly when it
is a failure extending the trailing failure run to length exactly `T` (so at
most once per contiguous failure run, at the evaluation where the consecutive
count first equals `T`); the stored alerted flag is 1 after the evaluation
exactly when the result is a failure and the trailing failure run has reached
`T`; and a successful result always resets the stored alerted flag to 0. -/
theorem alert_once_per_run (threshold : Nat) (hT : 1 ≤ threshold)
    (rs : List CheckResult) (r : CheckResult) :
    ((evaluate (runResults threshold rs) r threshold).2.should_alert = true ↔
       (r.ok = false ∧ trailingFails (rs.map (·.ok)) + 1 = threshold)) ∧
    ((evaluate (runResults threshold rs) r threshold).1.alerted = 1 ↔
       (r.ok = false ∧ threshold ≤ trailingFails (rs.map (·.ok)) + 1)) ∧
    (r.ok = true → (evaluate (runResults threshold rs) r threshold).1.alerted = 0) := by
  obtain ⟨h1, h2, h3⟩ := runResults_invariant threshold hT rs
  have hprev : (runResults threshold rs).getD defaultPrevRow = storedPrev threshold rs := rfl
  cases hok : r.ok with
  | true =>
      simp only [evaluate, hok, if_true, if_pos]
      exact ⟨by simp, by simp, by simp⟩
  | false =>
      simp only [evaluate, hok, Bool.false_eq_true, if_false, hprev]
      refine ⟨?_, ?_, by simp⟩
      · constructor
        · intro hsa
          rw [Bool.and_eq_true, decide_eq_true_eq, decide_eq_true_eq] at hsa
          obtain ⟨ha, hb⟩ := hsa
          rw [h1] at ha
          have hlt : ¬ threshold ≤ trailingFails (rs.map (·.ok)) := fun hc =>
            absurd (h2.mpr hc) (by omega)
          exact ⟨trivial, by omega⟩
        · rintro ⟨-, hb⟩
          rw [Bool.and_eq_true, decide_eq_true_eq, decide_eq_true_eq]
          refine ⟨by rw [h1]; omega, ?_⟩
          rcases h3 with h0 | h0
          · exact h0
          · exact absurd (h2.mp h0) (by omega)
      · by_cases ha : threshold ≤ (storedPrev threshold rs).error_count + 1 <;>
          by_cases hb : (storedPrev threshold rs).alerted = 0 <;>
          by_cases hc : (storedPrev threshold rs).alerted = 1 <;>
          rw [h1] at ha <;> simp_all <;> omega

/-- Witness for `alert_once_per_run`: with threshold 2 and one previous
failure, a second failure raises the alert. -/
theorem alert_once_per_run_witness :
    (evaluate (runResults 2 [⟨"svc", false, "down", 0⟩]) ⟨"svc", false, "down", 1⟩ 2).2.should_alert
      = true := by
  have h := alert_once_per_run 2 (by decide) [⟨"svc", false, "down", 0⟩] ⟨"svc", false, "down", 1⟩
  exact h.1.mpr ⟨rfl, by decide⟩

/-- A row of the `check_history` table (`id` is the AUTOINCREMENT key). -/
structure HistoryEntry where
  id : Nat
  service_name : String
  status : String
  checked_at : String
deriving Repr, DecidableEq

/-- The `check_history` table: insertion-ordered rows plus the next
AUTOINCREMENT id. -/
structure HistoryTable where
  nextId : Nat
  rows : List HistoryEntry
deriving Repr, DecidableEq

/-- Ordering used by `ORDER BY id DESC`. -/
def byIdDesc : HistoryEntry → HistoryEntry → Prop := fun a b => b.id ≤ a.id

instance : DecidableRel byIdDesc := fun a b => inferInstanceAs (Decidable (b.id ≤ a.id))

instance : IsTotal HistoryEntry byIdDesc := ⟨fun a b => Nat.le_total b.id a.id⟩

instance : IsTrans HistoryEntry byIdDesc := ⟨fun _ _ _ hab hbc => Nat.le_trans hbc hab⟩

/-- `SELECT ... FROM check_history WHERE service_name = s ORDER BY id DESC
LIMIT 10` over a list of rows (insertion sort is stable, like SQLite's
ordering on a single key). -/
def selectDesc10 (rows : List HistoryEntry) (s : String) : List HistoryEntry :=
  ((rows.filter (fun e => e.service_name == s)).insertionSort byIdDesc).take 10

/-- `StateStore._record_history` (src/state.py lines 128-140): append the new
row, then delete every row of this service whose id is not among the 10
largest ids for the service. -/
def record_history (t : HistoryTable) (s status checked_at : String) : HistoryTable :=
  let inserted := t.rows ++ [⟨t.nextId, s, status, checked_at⟩]
  let keep := (selectDesc10 inserted s).map (fun e => e.id)
  { nextId := t.nextId + 1,
    rows := inserted.filter (fun e => !(e.service_name == s && !(decide (e.id ∈ keep)))) }

/-- The per-service history list produced inside `get_all_states`
(src/state.py lines 149-159): latest 10 by id, then reversed to oldest
first. -/
def history_query (t : HistoryTable) (s : String) : List HistoryEntry :=
  (selectDesc10 t.rows s).reverse

/-- The in-memory model of the whole SQLite store: the `service_state` table
keyed by service name plus the `check_history` table. -/
structure StateStoreModel where
  states : List (String × ServiceRow)
  history : HistoryTable
deriving Repr, DecidableEq

def lookupRow (states : List (String × ServiceRow)) (name : String) : Option ServiceRow :=
  (states.find? (fun p => p.1 == name)).map (fun p => p.2)

def upsertRow (states : List (String × ServiceRow)) (name : String) (row : ServiceRow) :
    List (String × ServiceRow) :=
  if states.any (fun p => p.1 == name) then
    states.map (fun p => if p.1 == name then (name, row) else p)
  else states ++ [(name, row)]

/-- `StateStore.evaluate` at the store level: read the previous columns,
compute the transition, UPSERT the row and record history. -/
def store_evaluate (st : StateStoreModel) (result : CheckResult) (threshold : Nat) :
    StateStoreModel × StateChange :=
  let out := evaluate ((lookupRow st.states result.service_name).map rowToPrev) result threshold
  ({ states := upsertRow st.states result.service_name out.1,
     history := record_history st.history result.service_name out.1.status
       (toString result.checked_at) },
   out.2)

/-- Fresh database: no rows, AUTOINCREMENT starts at 1. -/
def emptyStore : StateStoreModel := ⟨[], ⟨1, []⟩⟩

/-- The store after a sequence of evaluations against a fresh database. -/
def runStore (threshold : Nat) (ops : List CheckResult) : StateStoreModel :=
  ops.foldl (fun st r => (store_evaluate st r threshold).1) emptyStore

/-- One item of the list returned by `StateStore.get_all_states`. -/
structure ServiceStateView where
  name : String
  status : String
  message : String
  error_count : Nat
  last_checked : Option String
  history : List String
deriving Repr, DecidableEq

/-- Ordering used by `ORDER BY service_name`. -/
def byNameLe : (String × ServiceRow) → (String × ServiceRow) → Prop := fun a b => a.1 ≤ b.1

instance : DecidableRel byNameLe := fun a b => inferInstanceAs (Decidable (a.1 ≤ b.1))

instance : IsTotal (String × ServiceRow) byNameLe := ⟨fun a b => le_total a.1 b.1⟩

instance : IsTrans (String × ServiceRow) byNameLe := ⟨fun _ _ _ hab hbc => le_trans hab hbc⟩

/-- `StateStore.get_all_states` (src/state.py lines 142-161). -/
def get_all_states (st : StateStoreModel) : List ServiceStateView :=
  (st.states.insertionSort byNameLe).map fun p =>
    ⟨p.1, p.2.status, p.2.message, p.2.error_count, p.2.last_checked,
     (history_query st.history p.1).map (fun e => e.status)⟩

/-- Well-formedness of the history table: ids strictly increase along the
stored order and stay below the AUTOINCREMENT counter. -/
def HistInv (t : HistoryTable) : Prop :=
  t.rows.Pairwise (fun a b => a.id < b.id) ∧ ∀ e ∈ t.rows, e.id < t.nextId

theorem orderedInsert_eq_append {a : HistoryEntry} (l : List HistoryEntry)
    (h : ∀ b ∈ l, ¬ byIdDesc a b) :
    l.orderedInsert byIdDesc a = l ++ [a] := by
  induction l with
  | nil => rfl
  | cons b l ih =>
      have hb : ¬ byIdDesc a b := h b (List.mem_cons_self b l)
      simp only [List.orderedInsert, if_neg hb, List.cons_append]
      rw [ih (fun c hc => h c (List.mem_cons_of_mem b hc))]

theorem insertionSort_byIdDesc_eq_reverse (l : List HistoryEntry)
    (h : l.Pairwise (fun a b => a.id < b.id)) :
    l.insertionSort byIdDesc = l.reverse := by
  induction l with
  | nil => rfl
  | cons a l ih =>
      have hrest := (List.pairwise_cons.mp h).2
      have hcross := (List.pairwise_cons.mp h).1
      simp only [List.insertionSort, ih hrest, List.reverse_cons]
      refine orderedInsert_eq_append l.reverse fun b hb => ?_
      have hab : a.id < b.id := hcross b (List.mem_reverse.mp hb)
      exact fun hd => absurd hd (by unfold byIdDesc; omega)

theorem record_history_step (t : HistoryTable) (hInv : HistInv t) (s status ts : String) :
    (record_history t s status ts).rows.filter (fun e : HistoryEntry => e.service_name == s)
      = ((t.rows.filter (fun e : HistoryEntry => e.service_name == s))
          ++ [(⟨t.nextId, s, status, ts⟩ : HistoryEntry)]).rtake 10 ∧
    (∀ u, u ≠ s →
      (record_history t s status ts).rows.filter (fun e : HistoryEntry => e.service_name == u)
        = t.rows.filter (fun e : HistoryEntry => e.service_name == u)) ∧
    HistInv (record_history t s status ts) := by
  obtain ⟨hpair, hbound⟩ := hInv
  set newE := (⟨t.nextId, s, status, ts⟩ : HistoryEntry) with hnewE
  set p := (fun e : HistoryEntry => e.service_name == s) with hp
  set L : List HistoryEntry := t.rows.filter p ++ [newE] with hL
  have hpnew : p newE = true := by simp [hp, hnewE]
  have hins : (t.rows ++ [newE]).filter p = L := by
    rw [List.filter_append]
    simp [hpnew]
  have hLpair : L.Pairwise (fun a b => a.id < b.id) := by
    rw [hL]
    refine List.pairwise_append.mpr ⟨List.Pairwise.sublist (t.rows.filter_sublist) hpair,
      List.pairwise_singleton _ _, ?_⟩
    intro a ha b hb
    have hid : a.id < t.nextId := hbound a (List.mem_filter.mp ha).1
    rcases List.mem_singleton.mp hb with rfl
    exact hid
  have hsort : L.insertionSort byIdDesc = L.reverse :=
    insertionSort_byIdDesc_eq_reverse L hLpair
  have hsel : selectDesc10 (t.rows ++ [newE]) s = L.reverse.take 10 := by
    unfold selectDesc10
    rw [hins, hsort]
  set B : List HistoryEntry := L.rtake 10 with hB
  set A : List HistoryEntry := L.take (L.length - 10) with hA
  have hAB : A ++ B = L := List.take_append_drop (L.length - 10) L
  have hBrev : B.reverse = L.reverse.take 10 := by
    rw [hB, List.rtake_eq_reverse_take_reverse, List.reverse_reverse]
  set keep : List Nat := (selectDesc10 (t.rows ++ [newE]) s).map (fun e => e.id) with hkeep
  have hkeepB : keep = B.reverse.map (fun e => e.id) := by rw [hkeep, hsel, hBrev]
  have hmemB : ∀ b ∈ B, b.id ∈ keep := by
    intro b hb
    rw [hkeepB]
    exact List.mem_map.mpr ⟨b, List.mem_reverse.mpr hb, rfl⟩
  have hmemA : ∀ a ∈ A, a.id ∉ keep := by
    intro a ha hcontra
    rw [hkeepB] at hcontra
    obtain ⟨b, hbmem, hbid⟩ := List.mem_map.mp hcontra
    have hb : b ∈ B := List.mem_reverse.mp hbmem
    have hcross := (List.pairwise_append.mp (hAB ▸ hLpair)).2.2 a ha b hb
    omega
  have hrows : (record_history t s status ts).rows =
      (t.rows ++ [newE]).filter (fun e => !(p e && !(decide (e.id ∈ keep)))) := rfl
  refine ⟨?_, ?_, ?_⟩
  · rw [hrows, List.filter_filter]
    have hcongr : (t.rows ++ [newE]).filter
          (fun e => p e && !(p e && !(decide (e.id ∈ keep))))
        = (t.rows ++ [newE]).filter (fun e => p e && decide (e.id ∈ keep)) := by
      refine List.filter_congr fun e _ => ?_
      cases hpe : p e <;> cases hme : decide (e.id ∈ keep) <;> simp [hpe, hme]
    rw [hcongr]
    have hsplit : (t.rows ++ [newE]).filter (fun e => p e && decide (e.id ∈ keep))
        = L.filter (fun e => decide (e.id ∈ keep)) := by
      rw [← hins, List.filter_filter]
      refine List.filter_congr fun e _ => ?_
      cases hpe : p e <;> cases hme : decide (e.id ∈ keep) <;> simp [hpe, hme]
    rw [hsplit, ← hAB, List.filter_append]
    have hfA : A.filter (fun e => decide (e.id ∈ keep)) = [] := by
      rw [List.filter_eq_nil_iff]
      intro a ha
      simpa using hmemA a ha
    have hfB : B.filter (fun e => decide (e.id ∈ keep)) = B := by
      rw [List.filter_eq_self]
      intro b hb
      simpa using hmemB b hb
    rw [hfA, hfB, List.nil_append]
  · intro u hu
    rw [hrows, List.filter_filter]
    have hcongr : (t.rows ++ [newE]).filter
          (fun e => (e.service_name == u) && !(p e && !(decide (e.id ∈ keep))))
        = (t.rows ++ [newE]).filter (fun e => e.service_name == u) := by
      refine List.filter_congr fun e _ => ?_
      cases heu : e.service_name == u with
      | false => simp [heu]
      | true =>
          have heq : e.service_name = u := by simpa using heu
          have hps : p e = false := by
            simp only [hp, heq]
            exact beq_eq_false_iff_ne.mpr hu
          simp [heu, hps]
    rw [hcongr, List.filter_append]
    have hnew : [newE].filter (fun e => e.service_name == u) = [] := by
      simp [hnewE, beq_eq_false_iff_ne.mpr (Ne.symm hu)]
    rw [hnew, List.append_nil]
  · constructor
    · refine List.Pairwise.sublist ((t.rows ++ [newE]).filter_sublist) ?_
      refine List.pairwise_append.mpr ⟨hpair, List.pairwise_singleton _ _, ?_⟩
      intro a ha b hb
      rcases List.mem_singleton.mp hb with rfl
      exact hbound a ha
    · intro e he
      have hmem : e ∈ t.rows ++ [newE] :=
        List.Sublist.subset ((t.rows ++ [newE]).filter_sublist) he
      have hnext : (record_history t s status ts).nextId = t.nextId + 1 := rfl
      rw [hnext]
      rcases List.mem_append.mp hmem with h | h
      · exact Nat.lt_succ_of_lt (hbound e h)
      · rcases List.mem_singleton.mp h with rfl
        exact Nat.lt_succ_self _

theorem runStore_append (threshold : Nat) (ops : List CheckResult) (r : CheckResult) :
    runStore threshold (ops ++ [r]) = (store_evaluate (runStore threshold ops) r threshold).1 := by
  simp [runStore, List.foldl_append]

theorem store_evaluate_history (st : StateStoreModel) (r : CheckResult) (threshold : Nat) :
    (store_evaluate st r threshold).1.history =
      record_history st.history r.service_name
        (evaluate ((lookupRow st.states r.service_name).map rowToPrev) r threshold).1.status
        (toString r.checked_at) := rfl

theorem histInv_runStore (threshold : Nat) (ops : List CheckResult) :
    HistInv (runStore threshold ops).history := by
  induction ops using List.reverseRecOn with
  | nil => exact ⟨List.Pairwise.nil, fun e he => absurd he (List.not_mem_nil e)⟩
  | append_singleton ops r ih =>
      rw [runStore_append]
      exact (record_history_step (runStore threshold ops).history ih r.service_name
        (evaluate ((lookupRow (runStore threshold ops).states r.service_name).map rowToPrev)
          r threshold).1.status (toString r.checked_at)).2.2

theorem history_count_le (threshold : Nat) (ops : List CheckResult) (s : String) :
    ((runStore threshold ops).history.rows.filter
      (fun e : HistoryEntry => e.service_name == s)).length ≤ 10 := by
  induction ops using List.reverseRecOn with
  | nil => simp [runStore, emptyStore]
  | append_singleton ops r ih =>
      rw [runStore_append]
      have hstep := record_history_step (runStore threshold ops).history
        (histInv_runStore threshold ops) r.service_name
        (evaluate ((lookupRow (runStore threshold ops).states r.service_name).map rowToPrev)
          r threshold).1.status (toString r.checked_at)
      rw [store_evaluate_history]
      by_cases hs : s = r.service_name
      · subst hs
        rw [hstep.1]
        have : ∀ (l : List HistoryEntry), (l.rtake 10).length ≤ 10 := by
          intro l
          have := List.length_drop (l.length - 10) l
          simpa [List.rtake] using by omega
        exact this _
      · rw [hstep.2.1 s hs]
        exact ih

theorem history_query_eq_rtake (t : HistoryTable) (hInv : HistInv t) (s : String) :
    history_query t s = (t.rows.filter (fun e : HistoryEntry => e.service_name == s)).rtake 10 := by
  unfold history_query selectDesc10
  rw [insertionSort_byIdDesc_eq_reverse _ (List.Pairwise.sublist (t.rows.filter_sublist) hInv.1),
    List.rtake_eq_reverse_take_reverse]

/-- C7: starting from a fresh database, after any sequence of evaluations (a)
at most 10 history rows per service name are retained; (b) the per-service
history returned by `get_all_states` lists entries with strictly increasing
ids, i.e. oldest to newest in insertion order, and is exactly the status
projection of the retained entries; and (c) each further insertion keeps
exactly the 10 most recent entries of that service (the previous retained
entries plus the new one, truncated on the left) and leaves other services
untouched. -/
theorem history_retention_and_order (threshold : Nat) (ops : List CheckResult) (s : String) :
    ((runStore threshold ops).history.rows.filter
        (fun e : HistoryEntry => e.service_name == s)).length ≤ 10 ∧
    (history_query (runStore threshold ops).history s).Pairwise (fun a b => a.id < b.id) ∧
    (∀ v ∈ get_all_states (runStore threshold ops),
        v.history = (history_query (runStore threshold ops).history v.name).map
          (fun e : HistoryEntry => e.status)) ∧
    (∀ r : CheckResult,
        ((store_evaluate (runStore threshold ops) r threshold).1.history.rows.filter
            (fun e : HistoryEntry => e.service_name == r.service_name))
          = (((runStore threshold ops).history.rows.filter
                (fun e : HistoryEntry => e.service_name == r.service_name))
              ++ [(⟨(runStore threshold ops).history.nextId, r.service_name,
                    (evaluate ((lookupRow (runStore threshold ops).states
                        r.service_name).map rowToPrev) r threshold).1.status,
                    toString r.checked_at⟩ : HistoryEntry)]).rtake 10) := by
  refine ⟨history_count_le threshold ops s, ?_, ?_, ?_⟩
  · rw [history_query_eq_rtake _ (histInv_runStore threshold ops)]
    have hX : ((runStore threshold ops).history.rows.filter
        (fun e : HistoryEntry => e.service_name == s)).Pairwise (fun a b => a.id < b.id) :=
      List.Pairwise.sublist (List.filter_sublist _) (histInv_runStore threshold ops).1
    exact List.Pairwise.sublist (List.drop_sublist _ _) hX
  · intro v hv
    obtain ⟨p, hp, rfl⟩ := List.mem_map.mp hv
    rfl
  · intro r
    exact (record_history_step (runStore threshold ops).history
      (histInv_runStore threshold ops) r.service_name
      (evaluate ((lookupRow (runStore threshold ops).states r.service_name).map rowToPrev)
        r threshold).1.status (toString r.checked_at)).1

/-- Witness for `history_retention_and_order` at a concrete run of three
evaluations of one service. -/
theorem history_retention_and_order_witness :
    ((runStore 2 [⟨"svc", true, "ok", 0⟩, ⟨"svc", false, "down", 1⟩,
        ⟨"svc", true, "ok", 2⟩]).history.rows.filter
      (fun e : HistoryEntry => e.service_name == "svc")).length ≤ 10 :=
  (history_retention_and_order 2 [⟨"svc", true, "ok", 0⟩, ⟨"svc", false, "down", 1⟩,
    ⟨"svc", true, "ok", 2⟩] "svc").1

/-- Python exceptions that can escape the deep-health check. -/
inductive PyError where
  | keyError (key : String)
  | attrError
deriving Repr, DecidableEq

/-- One element of a `district_results` array: a record with the optional
keys read by `_check_district_metrics` (`district`, `success` defaulting to
`True`, `error_message`). -/
structure DistrictResult where
  district : Option String
  success : Option Bool
  error_message : Option String
deriving Repr, DecidableEq

/-- The value stored under the `district_results` key of a metric record:
missing (`.get` default `[]`), present but not a list, or a list. -/
inductive DRField where
  | absent
  | notList
  | list (rs : List DistrictResult)
deriving Repr, DecidableEq

/-- `record.get("district_results", [])` followed by the `isinstance(results,
list)` test: `some` when the loop body runs over the given entries. -/
def DRField.getResults : DRField → Option (List DistrictResult)
  | .absent => some []
  | .notList => none
  | .list rs => some rs

/-- A record returned by the PocketBase list endpoint: the plain string
fields read with `.get(field, ...)`, plus the `district_results` value. -/
structure PBItem where
  fields : List (String × String)
  district_results : DRField
deriving Repr, DecidableEq

/-- `item.get(key)` on the plain string fields. -/
def lookupField (it : PBItem) (key : String) : Option String :=
  (it.fields.find? (fun p => p.1 == key)).map (fun p => p.2)

/-- Body of a successful list-records response (`resp.json()`), with
`data.get("items", [])` modelled by the `items` list. -/
structure PBData where
  items : List PBItem
deriving Repr, DecidableEq

/-- Outcome of one authenticated GET issued by `_pb_get`: a 2xx response
with a JSON body, a 401, another error status (`raise_for_status` raises),
or a transport exception. -/
inductive GetOutcome where
  | ok (body : PBData)
  | unauthorized
  | httpError
  | netError
deriving Repr, DecidableEq

/-- The mutable world `checker.py` interacts with: the token cache of
`PocketBaseAuth` plus the queued outcomes of the authentication POSTs and
the record GETs, in call order. -/
structure PBEnv where
  tokens : String → Option String
  auths : List (Option String)
  gets : List GetOutcome

/-- `PocketBaseAuth.get_token` (src/checker.py lines 62-81): return the
cached token, else authenticate; a successful authentication stores the
token, a failed one returns `None` and caches nothing. -/
def get_token (env : PBEnv) (pb_url : String) : Option String × PBEnv :=
  match env.tokens pb_url with
  | some t => (some t, env)
  | none =>
    match env.auths with
    | [] => (none, env)
    | a :: rest =>
      match a with
      | none => (none, { env with auths := rest })
      | some t =>
        let newTokens : String → Option String :=
          fun u => if u = pb_url then some t else env.tokens u
        (some t, { env with auths := rest, tokens := newTokens })

/-- `PocketBaseAuth.invalidate` (src/checker.py lines 83-84). -/
def invalidate (tokens : String → Option String) (pb_url : String) : String → Option String :=
  fun u => if u = pb_url then none else tokens u

/-- Pop the next GET outcome; an exhausted queue behaves as a transport
error. -/
def next_get (env : PBEnv) : GetOutcome × PBEnv :=
  match env.gets with
  | [] => (GetOutcome.netError, env)
  | g :: rest => (g, { env with gets := rest })

/-- Second loop iteration of `_pb_get` (attempt 1), from fetching a token: a
401 here is not retried (`attempt == 0` fails), it falls through
`raise_for_status` and returns `None` like any other error. -/
def handle_second : GetOutcome × PBEnv → Option PBData × PBEnv
  | (GetOutcome.ok body, env) => (some body, env)
  | (_, env) => (none, env)

def attempt_second : Option String × PBEnv → Option PBData × PBEnv
  | (none, env) => (none, env)
  | (some _, env) => handle_second (next_get env)

/-- First loop iteration of `_pb_get` (attempt 0) after the GET came back: a
401 invalidates the cached token and the whole request is retried once. -/
def handle_first (g : GetOutcome × PBEnv) (pb_url : String) : Option PBData × PBEnv :=
  match g with
  | (GetOutcome.ok body, env) => (some body, env)
  | (GetOutcome.unauthorized, env) =>
      attempt_second (get_token { env with tokens := invalidate env.tokens pb_url } pb_url)
  | (GetOutcome.httpError, env) => (none, env)
  | (GetOutcome.netError, env) => (none, env)

def attempt_first (tok : Option String × PBEnv) (pb_url : String) : Option PBData × PBEnv :=
  match tok with
  | (none, env) => (none, env)
  | (some _, env) => handle_first (next_get env) pb_url

/-- `_pb_get` (src/checker.py lines 87-108): its `for attempt in range(2)`
loop unrolled into the two iterations `attempt_first` / `attempt_second`. -/
def pb_get (env : PBEnv) (pb_url : String) : Option PBData × PBEnv :=
  attempt_first (get_token env pb_url) pb_url

theorem next_get_eq (env : PBEnv) (g : GetOutcome) (rest : List GetOutcome)
    (h : env.gets = g :: rest) : next_get env = (g, { env with gets := rest }) := by
  unfold next_get
  rw [h]

theorem get_token_miss_nil (env : PBEnv) (url : String) (h : env.tokens url = none)
    (hA : env.auths = []) : get_token env url = (none, env) := by
  unfold get_token
  rw [h, hA]

theorem get_token_miss_none (env : PBEnv) (url : String) (rest : List (Option String))
    (h : env.tokens url = none) (hA : env.auths = none :: rest) :
    get_token env url = (none, { env with auths := rest }) := by
  unfold get_token
  rw [h, hA]

theorem get_token_miss_some (env : PBEnv) (url t : String) (rest : List (Option String))
    (h : env.tokens url = none) (hA : env.auths = some t :: rest) :
    get_token env url =
      (some t, { env with
                 auths := rest
                 tokens := fun u => if u = url then some t else env.tokens u }) := by
  unfold get_token
  rw [h, hA]

theorem get_token_fresh (env : PBEnv) (url : String) (h : env.tokens url = none) (t1 : String)
    (hsome : (get_token env url).1 = some t1) :
    (get_token env url).2.tokens url = some t1 ∧
    env.auths.head? = some (some t1) ∧
    (get_token env url).2.gets = env.gets := by
  rcases hA : env.auths with _ | ⟨a, rest⟩
  · rw [get_token_miss_nil env url h hA] at hsome
    simp at hsome
  · cases a with
    | none =>
        rw [get_token_miss_none env url rest h hA] at hsome
        simp at hsome
    | some t =>
        rw [get_token_miss_some env url t rest h hA] at hsome ⊢
        simp only [Option.some.injEq] at hsome
        subst hsome
        exact ⟨by simp, rfl, rfl⟩

/-- State of the world at the start of `_pb_get`'s second loop iteration,
after a first 401: the first token consumed, the 401 popped, and the cached
token for the backend invalidated. -/
def afterFirstReject (env : PBEnv) (url : String) (gs : List GetOutcome) : PBEnv :=
  { (get_token env url).2 with
    gets := gs
    tokens := invalidate (get_token env url).2.tokens url }

/-- C4 counterexample: with an empty cache, auth yielding tokens `t0` then
`t1` and both GETs answering 401, `_pb_get` returns `None` (terminal), but
the token cache still holds the retry token `t1` for the backend — it is not
empty, because `invalidate` only runs on the first rejection. -/
theorem pb_get_double_reject_keeps_token :
    (pb_get ⟨fun _ => none, [some "t0", some "t1"],
        [GetOutcome.unauthorized, GetOutcome.unauthorized]⟩ "u").1 = none ∧
    (pb_get ⟨fun _ => none, [some "t0", some "t1"],
        [GetOutcome.unauthorized, GetOutcome.unauthorized]⟩ "u").2.tokens "u" = some "t1" := by
  constructor
  · rfl
  · simp [pb_get, get_token, next_get, invalidate, attempt_first, handle_first,
      attempt_second, handle_second]

/-- C4 (amended): after an authenticated GET answers 401 on the first
attempt, the cached token for that backend is invalidated and the whole
request is retried exactly once with a freshly fetched token (taken from the
next authentication call, since the cache was just cleared); a second 401 is
terminal — the call returns `none` consuming no further GET outcome — and the
cache then still holds the freshly fetched retry token; a success on the
retry returns its body; a failed re-authentication is terminal as well. -/
theorem pb_get_auth_retry (env : PBEnv) (url t0 : String) (gs : List GetOutcome)
    (h0 : (get_token env url).1 = some t0)
    (h1 : (get_token env url).2.gets = GetOutcome.unauthorized :: gs) :
    (afterFirstReject env url gs).tokens url = none ∧
    (∀ t1, (get_token (afterFirstReject env url gs) url).1 = some t1 →
       (afterFirstReject env url gs).auths.head? = some (some t1)) ∧
    (∀ t1 rest, (get_token (afterFirstReject env url gs) url).1 = some t1 →
       (get_token (afterFirstReject env url gs) url).2.gets = GetOutcome.unauthorized :: rest →
       pb_get env url =
         (none, { (get_token (afterFirstReject env url gs) url).2 with gets := rest }) ∧
       (pb_get env url).2.tokens url = some t1) ∧
    (∀ t1 body rest, (get_token (afterFirstReject env url gs) url).1 = some t1 →
       (get_token (afterFirstReject env url gs) url).2.gets = GetOutcome.ok body :: rest →
       pb_get env url =
         (some body, { (get_token (afterFirstReject env url gs) url).2 with gets := rest })) ∧
    ((get_token (afterFirstReject env url gs) url).1 = none →
       pb_get env url = (none, (get_token (afterFirstReject env url gs) url).2)) := by
  have htokI : (afterFirstReject env url gs).tokens url = none := by
    simp [afterFirstReject, invalidate]
  have hpb : pb_get env url = attempt_second (get_token (afterFirstReject env url gs) url) := by
    unfold pb_get
    rcases hgt : get_token env url with ⟨r1, env0⟩
    rw [hgt] at h0 h1
    simp only at h0 h1
    subst h0
    dsimp only [attempt_first]
    rw [next_get_eq env0 _ _ h1]
    dsimp only [handle_first]
    have henvI : { { env0 with gets := gs } with
        tokens := invalidate { env0 with gets := gs }.tokens url } =
        afterFirstReject env url gs := by
      unfold afterFirstReject
      rw [hgt]
    rw [henvI]
  refine ⟨htokI, ?_, ?_, ?_, ?_⟩
  · intro t1 hgt1
    exact (get_token_fresh _ _ htokI t1 hgt1).2.1
  · intro t1 rest hgt1 hgets
    obtain ⟨hfresh, -, -⟩ := get_token_fresh _ _ htokI t1 hgt1
    rcases hgt : get_token (afterFirstReject env url gs) url with ⟨r3, env3⟩
    rw [hgt] at hgt1 hgets hfresh
    simp only at hgt1 hgets hfresh
    subst hgt1
    rw [hpb, hgt]
    dsimp only [attempt_second]
    rw [next_get_eq env3 _ _ hgets]
    dsimp only [handle_second]
    exact ⟨rfl, hfresh⟩
  · intro t1 body rest hgt1 hgets
    rcases hgt : get_token (afterFirstReject env url gs) url with ⟨r3, env3⟩
    rw [hgt] at hgt1 hgets
    simp only at hgt1 hgets
    subst hgt1
    rw [hpb, hgt]
    dsimp only [attempt_second]
    rw [next_get_eq env3 _ _ hgets]
    rfl
  · intro hnone
    rcases hgt : get_token (afterFirstReject env url gs) url with ⟨r3, env3⟩
    rw [hgt] at hnone
    simp only at hnone
    subst hnone
    rw [hpb, hgt]
    rfl

/-- Witness for `pb_get_auth_retry`: one 401, then a success on the retry
with the freshly fetched token yields the body. -/
theorem pb_get_auth_retry_witness :
    (pb_get ⟨fun _ => none, [some "t0", some "t1"],
        [GetOutcome.unauthorized, GetOutcome.ok ⟨[]⟩]⟩ "u").1 = some ⟨[]⟩ := by
  have h := pb_get_auth_retry ⟨fun _ => none, [some "t0", some "t1"],
    [GetOutcome.unauthorized, GetOutcome.ok ⟨[]⟩]⟩ "u" "t0" [GetOutcome.ok ⟨[]⟩]
    (by simp [get_token]) (by simp [get_token])
  have hd := h.2.2.2.1 "t1" ⟨[]⟩ []
    (by simp [afterFirstReject, get_token, invalidate])
    (by simp [afterFirstReject, get_token, invalidate])
  rw [hd]

/-- Read exactly `n` ASCII digits, accumulating their value. -/
def readDigitsAux : Nat → Nat → List Char → Option (Nat × List Char)
  | 0, acc, cs => some (acc, cs)
  | n + 1, acc, c :: cs =>
      if c.isDigit then readDigitsAux n (acc * 10 + (c.toNat - 48)) cs else none
  | _ + 1, _, [] => none

def readDigits (n : Nat) (cs : List Char) : Option (Nat × List Char) :=
  readDigitsAux n 0 cs

def expectChar (c : Char) : List Char → Option (List Char)
  | x :: xs => if x = c then some xs else none
  | [] => none

/-- Greedily read up to `budget` digits, returning value, digit count and
rest. -/
def readFracAux : Nat → Nat → Nat → List Char → Nat × Nat × List Char
  | 0, acc, count, cs => (acc, count, cs)
  | b + 1, acc, count, c :: cs =>
      if c.isDigit then readFracAux b (acc * 10 + (c.toNat - 48)) (count + 1) cs
      else (acc, count, c :: cs)
  | _ + 1, acc, count, [] => (acc, count, [])

/-- `%f`: one to six fractional-second digits, scaled to microseconds. -/
def readFrac (cs : List Char) : Option (Nat × List Char) :=
  match readFracAux 6 0 0 cs with
  | (_, 0, _) => none
  | (v, k, rest) => some (v * 10 ^ (6 - k), rest)

/-- The `MM` minutes part of a `%z` offset, with the range checks. -/
def readOffsetMM (sign : Int) (hh : Nat) (cs : List Char) : Option (Int × List Char) :=
  match readDigits 2 cs with
  | none => none
  | some (mm, rest3) =>
      if hh ≤ 23 ∧ mm ≤ 59 then some (sign * ((hh : Int) * 60 + mm), rest3) else none

/-- `%z` as `strptime` accepts it on the encodings used by the backend:
`Z` (UTC) or a sign with `HHMM` / `HH:MM`.  Result in minutes east of
UTC. -/
def readOffset : List Char → Option (Int × List Char)
  | [] => none
  | c :: cs =>
    if c = 'Z' then some (0, cs)
    else if c = '+' ∨ c = '-' then
      match readDigits 2 cs with
      | none => none
      | some (hh, rest) =>
        match rest with
        | c2 :: rest2 =>
            if c2 = ':' then readOffsetMM (if c = '+' then 1 else -1) hh rest2
            else readOffsetMM (if c = '+' then 1 else -1) hh rest
        | [] => readOffsetMM (if c = '+' then 1 else -1) hh rest
    else none

def isLeap (y : Nat) : Bool := (y % 4 == 0 && y % 100 != 0) || y % 400 == 0

def daysInMonth (y m : Nat) : Nat :=
  if m = 2 then (if isLeap y then 29 else 28)
  else if m = 4 ∨ m = 6 ∨ m = 9 ∨ m = 11 then 30 else 31

/-- The range checks `datetime` performs when `strptime` builds the value
(an out-of-range field raises `ValueError`, which the parser's caller treats
as a format mismatch). -/
def validDT (y mo d h mi s : Nat) : Bool :=
  decide (1 ≤ y) && decide (1 ≤ mo) && decide (mo ≤ 12) && decide (1 ≤ d) &&
  decide (d ≤ daysInMonth y mo) && decide (h ≤ 23) && decide (mi ≤ 59) && decide (s ≤ 59)

/-- A parsed `datetime`: calendar fields, microseconds, and the zone offset
in minutes east of UTC (`none` = naive). -/
structure PBDateTime where
  year : Nat
  month : Nat
  day : Nat
  hour : Nat
  minute : Nat
  second : Nat
  micro : Nat
  offset : Option Int
deriving Repr, DecidableEq

/-- The common `YYYY-MM-DD<sep>HH:MM:SS[.ffffff]` core of the six formats. -/
def readStamp (sep : Char) (withFrac : Bool) (cs : List Char) :
    Option (PBDateTime × List Char) := do
  let (y, r1) ← readDigits 4 cs
  let r2 ← expectChar '-' r1
  let (mo, r3) ← readDigits 2 r2
  let r4 ← expectChar '-' r3
  let (d, r5) ← readDigits 2 r4
  let r6 ← expectChar sep r5
  let (h, r7) ← readDigits 2 r6
  let r8 ← expectChar ':' r7
  let (mi, r9) ← readDigits 2 r8
  let r10 ← expectChar ':' r9
  let (sec, r11) ← readDigits 2 r10
  let (mic, r12) ←
    if withFrac then do
      let ra ← expectChar '.' r11
      readFrac ra
    else pure (0, r11)
  if validDT y mo d h mi sec then
    pure (⟨y, mo, d, h, mi, sec, mic, none⟩, r12)
  else none

/-- One `strptime(time_str, fmt)` call for one of the six formats of
`_parse_pb_time`, on the zero-padded encodings the backend emits: the stamp
core, then a literal `Z`, a `%z` offset, or nothing; the whole string must
be consumed. -/
def parseFormat (sep : Char) (withFrac withZ withOff : Bool) (s : String) :
    Option PBDateTime := do
  let (dt, r) ← readStamp sep withFrac s.data
  if withZ then
    match expectChar 'Z' r with
    | some [] => pure dt
    | _ => none
  else if withOff then
    match readOffset r with
    | some (off, []) => pure { dt with offset := some off }
    | _ => none
  else
    match r with
    | [] => pure dt
    | _ => none

/-- The tz fixup after a successful naive parse (src/checker.py lines
125-131): `Z` suffix means UTC, otherwise the stamp is KST (UTC+9). -/
def finalizeTZ (endsZ : Bool) (dt : PBDateTime) : PBDateTime :=
  match dt.offset with
  | some _ => dt
  | none => if endsZ then { dt with offset := some 0 } else { dt with offset := some 540 }

/-- `_parse_pb_time` (src/checker.py lines 111-136): empty string is falsy;
each format is tried in order and the first success is returned, tagged with
the right zone. -/
def parse_pb_time (s : String) : Option PBDateTime :=
  if s = "" then none
  else
    (parseFormat ' ' true true false s <|>
     parseFormat ' ' false true false s <|>
     parseFormat ' ' true false false s <|>
     parseFormat ' ' false false false s <|>
     parseFormat 'T' true false true s <|>
     parseFormat 'T' false false true s).map
      (finalizeTZ (s.data.getLast? == some 'Z'))

/-- Days from civil date to 1970-01-01 (proleptic Gregorian, the days-from-civil
algorithm used by calendar libraries). -/
def daysFromCivil (y m d : Int) : Int :=
  let y2 := y - (if m ≤ 2 then 1 else 0)
  let era : Int := (if 0 ≤ y2 then y2 else y2 - 399) / 400
  let yoe := y2 - era * 400
  let mp := (m + 9) % 12
  let doy := (153 * mp + 2) / 5 + d - 1
  let doe := yoe * 365 + yoe / 4 - yoe / 100 + doy
  era * 146097 + doe - 719468

/-- Absolute instant of a zone-tagged datetime, in microseconds since the
Unix epoch (`offset` is subtracted: the fields are wall-clock in that
zone). -/
def toEpochMicros (dt : PBDateTime) : Int :=
  ((daysFromCivil dt.year dt.month dt.day) * 86400 +
    (dt.hour : Int) * 3600 + (dt.minute : Int) * 60 + (dt.second : Int) -
    (dt.offset.getD 0) * 60) * 1000000 + (dt.micro : Int)

def pad2 (n : Int) : String :=
  if n < 10 then "0" ++ toString n else toString n

/-- `instant.astimezone(KST).strftime("%H:%M")`: the KST wall-clock
hour:minute of an absolute instant. -/
def hmKST (micros : Int) : String :=
  let secsOfDay := (micros.fdiv 1000000 + 540 * 60).emod 86400
  pad2 (secsOfDay / 3600) ++ ":" ++ pad2 ((secsOfDay % 3600) / 60)

/-- First `n` characters of a Python string slice `s[:n]`. -/
def strTake (n : Nat) (s : String) : String := ⟨s.data.take n⟩

/-- The tunables of `config.Config` that the checker reads. -/
structure Config where
  scrapper_timeout : Int := 1800
  consecutive_error_threshold : Nat := 2
deriving Repr, DecidableEq

/-- `config.ScrapperConfig`. -/
structure ScrapperConfig where
  pb_url : String
  collection : String
  time_field : String
  error_collection : Option String := none
  error_level_field : Option String := none
  status_field : Option String := none
  metrics_collection : Option String := none
deriving Repr, DecidableEq

/-- `config.CheckType`, with one extra constructor covering any value
outside the three enum members (Python dataclasses do not enforce the
annotation, and `check_service` has an explicit fallback arm). -/
inductive CheckType where
  | http
  | pb_admin
  | scrapper
  | other (tag : String)
deriving Repr, DecidableEq

/-- `config.Service`. -/
structure Service where
  name : String
  check_type : CheckType
  url : String
  group : String := ""
  scrapper : Option ScrapperConfig := none
deriving Repr, DecidableEq

/-- Python truthiness of an `Optional[str]` field. -/
def isTruthy : Option String → Bool
  | none => false
  | some s => s ≠ ""

/-- Outcome of one plain `requests.get` (for the HTTP and admin checks): a
status code, or a raised `requests.RequestException` with its text. -/
inductive HttpResp where
  | status (code : Nat)
  | exn (msg : String)
deriving Repr, DecidableEq

/-- `check_http` (src/checker.py lines 29-38). -/
def check_http (service : Service) (resp : HttpResp) (now : Int) : CheckResult :=
  match resp with
  | .status code =>
      if 200 ≤ code ∧ code < 400 then ⟨service.name, true, "HTTP " ++ toString code, now⟩
      else ⟨service.name, false, "HTTP " ++ toString code, now⟩
  | .exn m => ⟨service.name, false, "접속 실패: " ++ m, now⟩

/-- `check_pb_admin` (src/checker.py lines 41-51). -/
def check_pb_admin (service : Service) (resp : HttpResp) (now : Int) : CheckResult :=
  match resp with
  | .status code =>
      if code = 200 then ⟨service.name, true, "PB Admin OK", now⟩
      else ⟨service.name, false, "PB Admin HTTP " ++ toString code, now⟩
  | .exn m => ⟨service.name, false, "PB 접속 실패: " ++ m, now⟩

/-- The failing-district set comprehension of `_check_district_metrics`
(src/checker.py line 222): `r["district"]` raises a `KeyError` when a
failing entry has no district key. -/
def failedDistricts : List DistrictResult → Except PyError (List String)
  | [] => .ok []
  | r :: rest =>
      if r.success.getD true then failedDistricts rest
      else
        match r.district with
        | none => .error (.keyError "district")
        | some d => (failedDistricts rest).map (fun ds => d :: ds)

/-- Prepend one item's failing set, or propagate its `KeyError`. -/
def consFailedSet (f? : Except PyError (List String))
    (rest : Except PyError (List (List String))) : Except PyError (List (List String)) :=
  match f? with
  | .error e => .error e
  | .ok f => rest.map (fun fs => f :: fs)

/-- The `failed_sets` loop (src/checker.py lines 218-223): every item whose
`district_results` is a list contributes its failing-district set. -/
def buildFailedSets : List PBItem → Except PyError (List (List String))
  | [] => .ok []
  | it :: rest =>
      match it.district_results.getResults with
      | none => buildFailedSets rest
      | some rs => consFailedSet (failedDistricts rs) (buildFailedSets rest)

/-- `data["items"][0].get("district_results", [])` followed by the result
loop (src/checker.py lines 232-237); iterating a non-list value raises. -/
def latestResults (items : List PBItem) : Except PyError (List DistrictResult) :=
  match items with
  | [] => .ok []
  | it :: _ =>
      match it.district_results with
      | .absent => .ok []
      | .notList => .error .attrError
      | .list rs => .ok rs

/-- The error text attached to a reported district (src/checker.py line
236): `r.get("error_message") or "원인 불명"`. -/
def errText (r : DistrictResult) : String :=
  match r.error_message with
  | none => "원인 불명"
  | some e => if e = "" then "원인 불명" else e

/-- One iteration of the result loop of `_check_district_metrics`
(src/checker.py lines 233-237). -/
def collectStep (P : String → Bool) (d? : Option String) (r : DistrictResult)
    (restOut : List (String × String)) : List (String × String) :=
  match d? with
  | some d => if P d then (d, errText r) :: restOut else restOut
  | none => restOut

/-- The result loop of `_check_district_metrics`: keep each latest-snapshot
entry whose district is persistent, with its error text. -/
def collectPersistent (P : String → Bool) : List DistrictResult → List (String × String)
  | [] => []
  | r :: rest => collectStep P r.district r (collectPersistent P rest)

/-- Ordering used by `sorted(result, key=lambda x: x[0])`. -/
def byFstLe : (String × String) → (String × String) → Prop := fun a b => a.1 ≤ b.1

instance : DecidableRel byFstLe := fun a b => inferInstanceAs (Decidable (a.1 ≤ b.1))

instance : IsTotal (String × String) byFstLe := ⟨fun a b => le_total a.1 b.1⟩

instance : IsTrans (String × String) byFstLe := ⟨fun _ _ _ hab hbc => le_trans hab hbc⟩

/-- Sort and report the persistent districts of the latest snapshot
(src/checker.py lines 231-239). -/
def metrics_report (fs0 fs1 : List String) (lr? : Except PyError (List DistrictResult))
    (env : PBEnv) : Except PyError (List (String × String)) × PBEnv :=
  match lr? with
  | .error e => (.error e, env)
  | .ok latest_results =>
      (.ok ((collectPersistent (fun d => fs0.contains d && fs1.contains d)
          latest_results).insertionSort byFstLe), env)

/-- `if len(failed_sets) < 2: return []` and the intersection of the first
two sets (src/checker.py lines 225-229). -/
def metrics_pick (failed_sets : List (List String)) (items : List PBItem) (env : PBEnv) :
    Except PyError (List (String × String)) × PBEnv :=
  match failed_sets with
  | fs0 :: fs1 :: _ => metrics_report fs0 fs1 (latestResults items) env
  | _ => (.ok [], env)

def metrics_sets (fss? : Except PyError (List (List String))) (items : List PBItem)
    (env : PBEnv) : Except PyError (List (String × String)) × PBEnv :=
  match fss? with
  | .error e => (.error e, env)
  | .ok failed_sets => metrics_pick failed_sets items env

/-- `_check_district_metrics` (src/checker.py lines 211-239) after its
`_pb_get` call. -/
def metrics_with_data : Option PBData × PBEnv → Except PyError (List (String × String)) × PBEnv
  | (none, env) => (.ok [], env)
  | (some data, env) =>
      if data.items.length < 2 then (.ok [], env)
      else metrics_sets (buildFailedSets data.items) data.items env

def check_district_metrics (env : PBEnv) (pb_url collection : String) :
    Except PyError (List (String × String)) × PBEnv :=
  metrics_with_data (pb_get env pb_url)

/-- The all-stages-passed message of `check_scrapper`. -/
def scrapperOkMsg (elapsed_min : Int) : String :=
  "정상 (마지막: " ++ toString elapsed_min ++ "분 전)"

/-- Stage 4 of `check_scrapper` (src/checker.py lines 197-208): district
metrics, then the success result. -/
def scrapper_metrics_stage (sc : ScrapperConfig) (name : String) (elapsed_min : Int)
    (env : PBEnv) (now : Int) : Except PyError CheckResult × PBEnv :=
  if isTruthy sc.metrics_collection then
    scrapper_metrics_result sc name elapsed_min
      (check_district_metrics env sc.pb_url (sc.metrics_collection.getD "")) now
  else (.ok ⟨name, true, scrapperOkMsg elapsed_min, now⟩, env)
where
  scrapper_metrics_result (sc : ScrapperConfig) (name : String) (elapsed_min : Int) :
      Except PyError (List (String × String)) × PBEnv → Int →
      Except PyError CheckResult × PBEnv
    | (.error e, env1), _ => (.error e, env1)
    | (.ok failed, env1), now =>
        if failed.isEmpty then (.ok ⟨name, true, scrapperOkMsg elapsed_min, now⟩, env1)
        else
          (.ok ⟨name, false,
            "연속 실패 구청: " ++ String.intercalate "; "
              (failed.map (fun p => p.1 ++ "(" ++ strTake 50 p.2 ++ ")")), now⟩, env1)

/-- Stage 3 of `check_scrapper` (src/checker.py lines 184-195) once the
newest error-log entry's timestamp is parsed: report it when younger than
300 seconds. -/
def scrapper_error_time (sc : ScrapperConfig) (name : String) (elapsed_min : Int)
    (errItem : PBItem) (dt? : Option PBDateTime) (env : PBEnv) (now : Int) :
    Except PyError CheckResult × PBEnv :=
  match dt? with
  | none => scrapper_metrics_stage sc name elapsed_min env now
  | some errDt =>
      if now - toEpochMicros errDt < 300 * 1000000 then
        (.ok ⟨name, false,
          "최근 에러: " ++ strTake 80 ((lookupField errItem "message").getD ""), now⟩, env)
      else scrapper_metrics_stage sc name elapsed_min env now

/-- Stage 3 of `check_scrapper`: `if err_data and err_data.get("items")`. -/
def scrapper_error_items (sc : ScrapperConfig) (name : String) (elapsed_min : Int)
    (items : List PBItem) (env : PBEnv) (now : Int) : Except PyError CheckResult × PBEnv :=
  match items with
  | [] => scrapper_metrics_stage sc name elapsed_min env now
  | errItem :: _ =>
      scrapper_error_time sc name elapsed_min errItem
        (parse_pb_time ((lookupField errItem "created").getD "")) env now

/-- Stage 3 of `check_scrapper` (src/checker.py lines 175-195) on the
error-log response. -/
def scrapper_error_check (sc : ScrapperConfig) (name : String) (elapsed_min : Int)
    (d : Option PBData × PBEnv) (now : Int) : Except PyError CheckResult × PBEnv :=
  match d with
  | (none, env1) => scrapper_metrics_stage sc name elapsed_min env1 now
  | (some errData, env1) => scrapper_error_items sc name elapsed_min errData.items env1 now

/-- Stages 2-3 of `check_scrapper` (src/checker.py lines 169-195): the
`status == "stopped"` heartbeat check, then the error-log check when an
error collection and level field are configured. -/
def scrapper_status_stage (sc : ScrapperConfig) (name : String) (latest : PBItem)
    (elapsed_min : Int) (env : PBEnv) (now : Int) : Except PyError CheckResult × PBEnv :=
  if isTruthy sc.status_field ∧
      lookupField latest (sc.status_field.getD "") = some "stopped" then
    (.ok ⟨name, false, "스크래퍼 상태: stopped", now⟩, env)
  else
    if isTruthy sc.error_collection ∧ isTruthy sc.error_level_field then
      scrapper_error_check sc name elapsed_min (pb_get env sc.pb_url) now
    else scrapper_metrics_stage sc name elapsed_min env now

/-- Staleness test of `check_scrapper` (src/checker.py lines 157-167). -/
def scrapper_fresh_check (sc : ScrapperConfig) (name : String) (latest : PBItem)
    (lastMicros : Int) (env : PBEnv) (config : Config) (now : Int) :
    Except PyError CheckResult × PBEnv :=
  let elapsed := now - lastMicros
  let elapsed_min := elapsed.fdiv 60000000
  if elapsed > config.scrapper_timeout * 1000000 then
    (.ok ⟨name, false,
      "무응답 " ++ toString elapsed_min ++ "분 (마지막: " ++ hmKST lastMicros ++ ")",
      now⟩, env)
  else scrapper_status_stage sc name latest elapsed_min env now

/-- Stage 1 of `check_scrapper` (src/checker.py lines 152-155): timestamp
parse outcome. -/
def scrapper_with_time (sc : ScrapperConfig) (name : String) (latest : PBItem)
    (dt? : Option PBDateTime) (env : PBEnv) (config : Config) (now : Int) :
    Except PyError CheckResult × PBEnv :=
  match dt? with
  | none => (.ok ⟨name, false, sc.time_field ++ " 파싱 실패", now⟩, env)
  | some dt => scrapper_fresh_check sc name latest (toEpochMicros dt) env config now

def scrapper_with_latest (sc : ScrapperConfig) (name : String) (latest : PBItem)
    (env : PBEnv) (config : Config) (now : Int) : Except PyError CheckResult × PBEnv :=
  scrapper_with_time sc name latest
    (parse_pb_time ((lookupField latest sc.time_field).getD "")) env config now

/-- `if not data or not data.get("items")` (src/checker.py line 149). -/
def scrapper_items (sc : ScrapperConfig) (name : String) (items : List PBItem)
    (env : PBEnv) (config : Config) (now : Int) : Except PyError CheckResult × PBEnv :=
  match items with
  | [] => (.ok ⟨name, false, sc.collection ++ " 데이터 없음", now⟩, env)
  | latest :: _ => scrapper_with_latest sc name latest env config now

/-- `check_scrapper` (src/checker.py lines 139-208) after its first
`_pb_get`. -/
def scrapper_with_data (sc : ScrapperConfig) (name : String)
    (d : Option PBData × PBEnv) (config : Config) (now : Int) :
    Except PyError CheckResult × PBEnv :=
  match d with
  | (none, env1) => (.ok ⟨name, false, sc.collection ++ " 데이터 없음", now⟩, env1)
  | (some data, env1) => scrapper_items sc name data.items env1 config now

/-- `check_scrapper` (src/checker.py lines 139-208). -/
def check_scrapper (service : Service) (env : PBEnv) (config : Config) (now : Int) :
    Except PyError CheckResult × PBEnv :=
  match service.scrapper with
  | none => (.ok ⟨service.name, false, "스크래퍼 설정 없음", now⟩, env)
  | some sc => scrapper_with_data sc service.name (pb_get env sc.pb_url) config now

/-- `check_service` (src/checker.py lines 242-250): dispatch on the check
kind, with the fallback arm for unknown kinds. -/
def check_service (service : Service) (resp : HttpResp) (env : PBEnv) (config : Config)
    (now : Int) : Except PyError CheckResult × PBEnv :=
  match service.check_type with
  | .http => (.ok (check_http service resp now), env)
  | .pb_admin => (.ok (check_pb_admin service resp now), env)
  | .scrapper => check_scrapper service env config now
  | .other tag => (.ok ⟨service.name, false, "알 수 없는 체크 유형: " ++ tag, now⟩, env)

/-- The failing districts of a snapshot whose failing entries all carry a
district id (pure counterpart of `failedDistricts`). -/
def failedOf (rs : List DistrictResult) : List String :=
  (rs.filter (fun r => !(r.success.getD true))).filterMap (fun r => r.district)

theorem failedDistricts_ok (rs : List DistrictResult)
    (h : ∀ r ∈ rs, r.success.getD true = true ∨ r.district.isSome = true) :
    failedDistricts rs = .ok (failedOf rs) := by
  induction rs with
  | nil => rfl
  | cons r rest ih =>
      have hr := h r (List.mem_cons_self r rest)
      have hrest := ih fun x hx => h x (List.mem_cons_of_mem r hx)
      unfold failedDistricts
      cases hs : r.success.getD true with
      | true =>
          rw [if_pos rfl, hrest]
          unfold failedOf
          simp [List.filter_cons, hs]
      | false =>
          rw [if_neg (by simp)]
          rcases hr with h1 | h2
          · rw [hs] at h1
            exact absurd h1 (by simp)
          · rcases hd : r.district with _ | d
            · rw [hd] at h2
              simp at h2
            · rw [hrest]
              unfold failedOf
              simp [List.filter_cons, hs, hd]
              rfl

theorem buildFailedSets_skip (it : PBItem) (rest : List PBItem)
    (h : it.district_results.getResults = none) :
    buildFailedSets (it :: rest) = buildFailedSets rest := by
  show (match it.district_results.getResults with
        | none => buildFailedSets rest
        | some rs => consFailedSet (failedDistricts rs) (buildFailedSets rest)) =
      buildFailedSets rest
  rw [h]

theorem buildFailedSets_cons (it : PBItem) (rest : List PBItem) (rs : List DistrictResult)
    (h : it.district_results.getResults = some rs) :
    buildFailedSets (it :: rest) = consFailedSet (failedDistricts rs) (buildFailedSets rest) := by
  show (match it.district_results.getResults with
        | none => buildFailedSets rest
        | some rs => consFailedSet (failedDistricts rs) (buildFailedSets rest)) =
      consFailedSet (failedDistricts rs) (buildFailedSets rest)
  rw [h]

theorem buildFailedSets_ok (items : List PBItem)
    (h : ∀ it ∈ items, ∀ rs, it.district_results.getResults = some rs →
      (∀ r ∈ rs, r.success.getD true = true ∨ r.district.isSome = true)) :
    ∃ fss, buildFailedSets items = .ok fss := by
  induction items with
  | nil => exact ⟨[], rfl⟩
  | cons it rest ih =>
      obtain ⟨fss, hfss⟩ := ih fun x hx => h x (List.mem_cons_of_mem it hx)
      rcases hres : it.district_results.getResults with _ | rs
      · rw [buildFailedSets_skip it rest hres]
        exact ⟨fss, hfss⟩
      · rw [buildFailedSets_cons it rest rs hres,
          failedDistricts_ok rs (h it (List.mem_cons_self it rest) rs hres), hfss]
        exact ⟨failedOf rs :: fss, rfl⟩

theorem mem_collectPersistent (P : String → Bool) (rs : List DistrictResult)
    (d : String) (e : String) :
    (d, e) ∈ collectPersistent P rs ↔
      ∃ r ∈ rs, r.district = some d ∧ P d = true ∧ e = errText r := by
  induction rs with
  | nil => simp [collectPersistent]
  | cons r rest ih =>
      have hstep : collectPersistent P (r :: rest) =
          collectStep P r.district r (collectPersistent P rest) := rfl
      rw [hstep]
      rcases hd : r.district with _ | d0
      · rw [show collectStep P none r (collectPersistent P rest) =
            collectPersistent P rest from rfl, ih]
        constructor
        · rintro ⟨r', hr', h1, h2, h3⟩
          exact ⟨r', List.mem_cons_of_mem r hr', h1, h2, h3⟩
        · rintro ⟨r', hr', h1, h2, h3⟩
          rcases List.mem_cons.mp hr' with rfl | hmem
          · rw [hd] at h1
            cases h1
          · exact ⟨r', hmem, h1, h2, h3⟩
      · rw [show collectStep P (some d0) r (collectPersistent P rest) =
            if P d0 then (d0, errText r) :: collectPersistent P rest
            else collectPersistent P rest from rfl]
        by_cases hp : P d0 = true
        · rw [if_pos hp]
          constructor
          · intro hmem
            rcases List.mem_cons.mp hmem with heq | hmem2
            · have h1 : d = d0 := congrArg Prod.fst heq
              have h2 : e = errText r := congrArg Prod.snd heq
              subst h1
              exact ⟨r, List.mem_cons_self r rest, hd, hp, h2⟩
            · obtain ⟨r', hr', h1, h2, h3⟩ := ih.mp hmem2
              exact ⟨r', List.mem_cons_of_mem r hr', h1, h2, h3⟩
          · rintro ⟨r', hr', h1, h2, h3⟩
            rcases List.mem_cons.mp hr' with rfl | hmem
            · rw [hd] at h1
              have hdd : d0 = d := Option.some.inj h1
              subst hdd
              exact List.mem_cons.mpr (Or.inl (by rw [h3]))
            · exact List.mem_cons.mpr (Or.inr (ih.mpr ⟨r', hmem, h1, h2, h3⟩))
        · rw [if_neg hp, ih]
          constructor
          · rintro ⟨r', hr', h1, h2, h3⟩
            exact ⟨r', List.mem_cons_of_mem r hr', h1, h2, h3⟩
          · rintro ⟨r', hr', h1, h2, h3⟩
            rcases List.mem_cons.mp hr' with rfl | hmem
            · rw [hd] at h1
              have hdd : d0 = d := Option.some.inj h1
              subst hdd
              exact absurd h2 hp
            · exact ⟨r', hmem, h1, h2, h3⟩

theorem mem_failedOf (rs : List DistrictResult) (d : String) :
    d ∈ failedOf rs ↔ ∃ r ∈ rs, r.success.getD true = false ∧ r.district = some d := by
  unfold failedOf
  simp only [List.mem_filterMap, List.mem_filter]
  constructor
  · rintro ⟨r, ⟨hmem, hs⟩, hd⟩
    exact ⟨r, hmem, by simpa using hs, hd⟩
  · rintro ⟨r, hmem, hs, hd⟩
    exact ⟨r, ⟨hmem, by simpa using hs⟩, hd⟩

theorem contains_iff_mem_str (l : List String) (d : String) : l.contains d = true ↔ d ∈ l := by
  simp

/-- C5: with at least two metric snapshots whose district entries are
well-formed, the Partition Failure Detector reports exactly the districts
whose success flag is false in BOTH of the two most recent snapshots (the
intersection); each reported district carries the error text of a
latest-snapshot entry with that district id (the `원인 불명` placeholder when
that text is missing or empty, via `errText`); the output is sorted by
district id; and with no response or fewer than two snapshots the result is
empty. -/
theorem district_metrics_intersection (env : PBEnv) (url coll : String) (data : PBData)
    (i0 i1 : PBItem) (rest : List PBItem) (rs0 rs1 : List DistrictResult)
    (hdata : (pb_get env url).1 = some data)
    (hitems : data.items = i0 :: i1 :: rest)
    (h0 : i0.district_results.getResults = some rs0)
    (h1 : i1.district_results.getResults = some rs1)
    (hgood : ∀ it ∈ data.items, ∀ rs, it.district_results.getResults = some rs →
      ∀ r ∈ rs, r.success.getD true = true ∨ r.district.isSome = true) :
    (∃ l, (check_district_metrics env url coll).1 = .ok l ∧
      List.Sorted byFstLe l ∧
      (∀ d, (∃ e, (d, e) ∈ l) ↔ (d ∈ failedOf rs0 ∧ d ∈ failedOf rs1)) ∧
      (∀ d e, (d, e) ∈ l → ∃ r ∈ rs0, r.district = some d ∧ e = errText r)) ∧
    (∀ env2 url2 coll2, (pb_get env2 url2).1 = none →
      (check_district_metrics env2 url2 coll2).1 = .ok []) ∧
    (∀ env2 url2 coll2 data2, (pb_get env2 url2).1 = some data2 → data2.items.length < 2 →
      (check_district_metrics env2 url2 coll2).1 = .ok []) := by
  have hempty1 : ∀ env2 url2 coll2, (pb_get env2 url2).1 = none →
      (check_district_metrics env2 url2 coll2).1 = .ok [] := by
    intro env2 url2 coll2 hnone
    unfold check_district_metrics
    rcases hpb : pb_get env2 url2 with ⟨d?, env3⟩
    rw [hpb] at hnone
    simp only at hnone
    subst hnone
    rfl
  have hempty2 : ∀ env2 url2 coll2 data2, (pb_get env2 url2).1 = some data2 →
      data2.items.length < 2 → (check_district_metrics env2 url2 coll2).1 = .ok [] := by
    intro env2 url2 coll2 data2 hsome hlen
    unfold check_district_metrics
    rcases hpb : pb_get env2 url2 with ⟨d?, env3⟩
    rw [hpb] at hsome
    simp only at hsome
    subst hsome
    show (metrics_with_data (some data2, env3)).1 = .ok []
    rw [show metrics_with_data (some data2, env3) =
        if data2.items.length < 2 then (.ok [], env3)
        else metrics_sets (buildFailedSets data2.items) data2.items env3 from rfl]
    rw [if_pos hlen]
  refine ⟨?_, hempty1, hempty2⟩
  have hgood0 : ∀ r ∈ rs0, r.success.getD true = true ∨ r.district.isSome = true :=
    hgood i0 (by rw [hitems]; exact List.mem_cons_self _ _) rs0 h0
  have hgood1 : ∀ r ∈ rs1, r.success.getD true = true ∨ r.district.isSome = true :=
    hgood i1 (by rw [hitems]; exact List.mem_cons_of_mem _ (List.mem_cons_self _ _)) rs1 h1
  obtain ⟨fssR, hfssR⟩ := buildFailedSets_ok rest (by
    intro x hx
    exact hgood x (by rw [hitems]; exact List.mem_cons_of_mem _ (List.mem_cons_of_mem _ hx)))
  have hlc : ∀ (it : PBItem) (tl : List PBItem),
      latestResults (it :: tl) =
        (match it.district_results with
         | .absent => .ok []
         | .notList => .error .attrError
         | .list rs => .ok rs) := fun it tl => rfl
  have hlatest : latestResults (i0 :: i1 :: rest) = .ok rs0 := by
    cases hdr : i0.district_results <;> rw [hdr] at h0 <;>
      simp only [DRField.getResults, Option.some.injEq] at h0
    · subst h0
      rw [hlc, hdr]
    · cases h0
    · subst h0
      rw [hlc, hdr]
  rcases hpb : pb_get env url with ⟨d?, env'⟩
  rw [hpb] at hdata
  simp only at hdata
  subst hdata
  have hlen : ¬ data.items.length < 2 := by
    rw [hitems]
    simp
  set P : String → Bool := fun d => (failedOf rs0).contains d && (failedOf rs1).contains d
    with hP
  have hrun : (check_district_metrics env url coll).1 =
      .ok ((collectPersistent P rs0).insertionSort byFstLe) := by
    unfold check_district_metrics
    rw [hpb]
    show (metrics_with_data (some data, env')).1 = _
    rw [show metrics_with_data (some data, env') =
        if data.items.length < 2 then (.ok [], env')
        else metrics_sets (buildFailedSets data.items) data.items env' from rfl]
    rw [if_neg hlen, hitems, buildFailedSets_cons _ _ _ h0,
      buildFailedSets_cons _ _ _ h1, failedDistricts_ok rs0 hgood0,
      failedDistricts_ok rs1 hgood1, hfssR]
    rw [show consFailedSet (.ok (failedOf rs1)) (.ok fssR) = .ok (failedOf rs1 :: fssR)
        from rfl]
    rw [show consFailedSet (.ok (failedOf rs0)) (.ok (failedOf rs1 :: fssR)) =
        .ok (failedOf rs0 :: failedOf rs1 :: fssR) from rfl]
    rw [show metrics_sets (.ok (failedOf rs0 :: failedOf rs1 :: fssR)) (i0 :: i1 :: rest) env' =
        metrics_report (failedOf rs0) (failedOf rs1) (latestResults (i0 :: i1 :: rest)) env'
        from rfl]
    rw [hlatest]
    rfl
  refine ⟨(collectPersistent P rs0).insertionSort byFstLe, hrun,
    List.sorted_insertionSort byFstLe _, ?_, ?_⟩
  · intro d
    constructor
    · rintro ⟨e, hmem⟩
      rw [List.mem_insertionSort] at hmem
      obtain ⟨r, hr, hrd, hPd, he⟩ := (mem_collectPersistent P rs0 d e).mp hmem
      rw [hP] at hPd
      simp only [Bool.and_eq_true] at hPd
      exact ⟨(contains_iff_mem_str _ _).mp hPd.1, (contains_iff_mem_str _ _).mp hPd.2⟩
    · rintro ⟨hd0, hd1⟩
      obtain ⟨r, hr, hsucc, hdis⟩ := (mem_failedOf rs0 d).mp hd0
      have hPd : P d = true := by
        rw [hP]
        simp only [Bool.and_eq_true]
        exact ⟨(contains_iff_mem_str _ _).mpr hd0, (contains_iff_mem_str _ _).mpr hd1⟩
      refine ⟨errText r, ?_⟩
      rw [List.mem_insertionSort]
      exact (mem_collectPersistent P rs0 d (errText r)).mpr ⟨r, hr, hdis, hPd, rfl⟩
  · intro d e hmem
    rw [List.mem_insertionSort] at hmem
    obtain ⟨r, hr, hrd, hPd, he⟩ := (mem_collectPersistent P rs0 d e).mp hmem
    exact ⟨r, hr, hrd, he⟩

/-- Witness for `district_metrics_intersection`: snapshot₁ fails {A,B},
snapshot₂ fails {B,C}; only B is reported, with the latest error text. -/
theorem district_metrics_intersection_witness :
    ∃ l, (check_district_metrics
        ⟨fun _ => some "tok", [],
          [GetOutcome.ok ⟨[⟨[], DRField.list
              [⟨some "A", some false, some "eA"⟩, ⟨some "B", some false, some "eB"⟩]⟩,
            ⟨[], DRField.list
              [⟨some "B", some false, some "old"⟩, ⟨some "C", some false, none⟩]⟩]⟩]⟩
        "u" "m").1 = .ok l ∧
      (∃ e, ("B", e) ∈ l) ∧ ¬ (∃ e, ("A", e) ∈ l) ∧ ¬ (∃ e, ("C", e) ∈ l) := by
  have h := district_metrics_intersection
    ⟨fun _ => some "tok", [],
      [GetOutcome.ok ⟨[⟨[], DRField.list
          [⟨some "A", some false, some "eA"⟩, ⟨some "B", some false, some "eB"⟩]⟩,
        ⟨[], DRField.list
          [⟨some "B", some false, some "old"⟩, ⟨some "C", some false, none⟩]⟩]⟩]⟩
    "u" "m"
    ⟨[⟨[], DRField.list
        [⟨some "A", some false, some "eA"⟩, ⟨some "B", some false, some "eB"⟩]⟩,
      ⟨[], DRField.list
        [⟨some "B", some false, some "old"⟩, ⟨some "C", some false, none⟩]⟩]⟩
    ⟨[], DRField.list [⟨some "A", some false, some "eA"⟩, ⟨some "B", some false, some "eB"⟩]⟩
    ⟨[], DRField.list [⟨some "B", some false, some "old"⟩, ⟨some "C", some false, none⟩]⟩
    [] _ _ (by decide) rfl rfl rfl (by decide)
  obtain ⟨⟨l, hl, hsort, hiff, herr⟩, -, -⟩ := h
  refine ⟨l, hl, ?_, ?_, ?_⟩
  · exact (hiff "B").mpr (by constructor <;> decide)
  · intro hc
    obtain ⟨-, hA⟩ := (hiff "A").mp hc
    revert hA
    decide
  · intro hc
    obtain ⟨hC, -⟩ := (hiff "C").mp hc
    revert hC
    decide

/-- `get_token` never touches the GET queue. -/
theorem get_token_gets (env : PBEnv) (url : String) : (get_token env url).2.gets = env.gets := by
  unfold get_token
  rcases env.tokens url with _ | t
  · rcases env.auths with _ | ⟨a, rest⟩
    · rfl
    · cases a <;> rfl
  · rfl

/-- The second `_pb_get` attempt only pops outcomes from the front of the
GET queue. -/
theorem attempt_second_consumes (env : PBEnv) (url : String) :
    (attempt_second (get_token env url)).2.gets.IsSuffix env.gets ∧
    (∀ b, (attempt_second (get_token env url)).1 = some b → GetOutcome.ok b ∈ env.gets) := by
  rcases hgt : get_token env url with ⟨r, env3⟩
  have hg3 : env3.gets = env.gets := by
    have := get_token_gets env url
    rw [hgt] at this
    exact this
  cases r with
  | none =>
      exact ⟨by show env3.gets.IsSuffix env.gets; rw [hg3],
        fun b hb => by simp [attempt_second] at hb⟩
  | some t2 =>
      dsimp only [attempt_second]
      rcases hgs3 : env3.gets with _ | ⟨g2, gs2⟩
      · rw [show next_get env3 = (GetOutcome.netError, env3) from by
          unfold next_get; rw [hgs3]]
        exact ⟨by show env3.gets.IsSuffix env.gets; rw [hg3],
          fun b hb => by simp [handle_second] at hb⟩
      · rw [next_get_eq env3 g2 gs2 hgs3]
        have hsuffix2 : gs2.IsSuffix env.gets := by
          rw [← hg3, hgs3]
          exact List.suffix_cons g2 gs2
        cases g2 with
        | ok body =>
            refine ⟨hsuffix2, fun b hb => ?_⟩
            simp only [handle_second] at hb
            obtain rfl := Option.some.inj hb
            rw [← hg3, hgs3]
            exact List.mem_cons_self _ _
        | unauthorized => exact ⟨hsuffix2, fun b hb => by simp [handle_second] at hb⟩
        | httpError => exact ⟨hsuffix2, fun b hb => by simp [handle_second] at hb⟩
        | netError => exact ⟨hsuffix2, fun b hb => by simp [handle_second] at hb⟩

/-- `_pb_get` only consumes GET outcomes from the front of the queue: the
remaining queue is a suffix of the original, and any returned body was one
of the queued successful responses. -/
theorem pb_get_consumes (env : PBEnv) (url : String) :
    (pb_get env url).2.gets.IsSuffix env.gets ∧
    (∀ b, (pb_get env url).1 = some b → GetOutcome.ok b ∈ env.gets) := by
  unfold pb_get
  rcases hgt : get_token env url with ⟨r, env0⟩
  have hg0 : env0.gets = env.gets := by
    have := get_token_gets env url
    rw [hgt] at this
    exact this
  cases r with
  | none =>
      exact ⟨by show env0.gets.IsSuffix env.gets; rw [hg0],
        fun b hb => by simp [attempt_first] at hb⟩
  | some t =>
      dsimp only [attempt_first]
      rcases hgs : env0.gets with _ | ⟨g, gs⟩
      · rw [show next_get env0 = (GetOutcome.netError, env0) from by
          unfold next_get; rw [hgs]]
        exact ⟨by show env0.gets.IsSuffix env.gets; rw [hg0],
          fun b hb => by simp [handle_first] at hb⟩
      · rw [next_get_eq env0 g gs hgs]
        have hsuffix : gs.IsSuffix env.gets := by
          rw [← hg0, hgs]
          exact List.suffix_cons g gs
        cases g with
        | ok body =>
            refine ⟨hsuffix, fun b hb => ?_⟩
            simp only [handle_first] at hb
            obtain rfl := Option.some.inj hb
            rw [← hg0, hgs]
            exact List.mem_cons_self _ _
        | httpError => exact ⟨hsuffix, fun b hb => by simp [handle_first] at hb⟩
        | netError => exact ⟨hsuffix, fun b hb => by simp [handle_first] at hb⟩
        | unauthorized =>
            dsimp only [handle_first]
            obtain ⟨hs2, hm2⟩ := attempt_second_consumes
              { { env0 with gets := gs } with
                tokens := invalidate { env0 with gets := gs }.tokens url } url
            constructor
            · exact List.IsSuffix.trans hs2 hsuffix
            · intro b hb
              exact hsuffix.subset (hm2 b hb)

/-- A well-formed `district_results` value: absent, or a list whose failing
entries carry a district id. -/
def goodDR : DRField → Bool
  | .absent => true
  | .notList => false
  | .list rs => rs.all (fun r => r.success.getD true || r.district.isSome)

def goodBody (b : PBData) : Bool :=
  b.items.all (fun it => goodDR it.district_results)

/-- Backend behaviour whose successful responses are all well-formed. -/
def goodEnv (env : PBEnv) : Prop :=
  ∀ b, GetOutcome.ok b ∈ env.gets → goodBody b = true

theorem goodEnv_of_suffix (env env2 : PBEnv) (h : goodEnv env)
    (hs : env2.gets.IsSuffix env.gets) : goodEnv env2 :=
  fun b hb => h b (hs.subset hb)

theorem goodBody_cond (data : PBData) (hb : goodBody data = true) :
    ∀ it ∈ data.items, ∀ rs, it.district_results.getResults = some rs →
      ∀ r ∈ rs, r.success.getD true = true ∨ r.district.isSome = true := by
  intro it hit rs hrs r hr
  have hgd : goodDR it.district_results = true := by
    have := List.all_eq_true.mp hb it hit
    exact this
  cases hdr : it.district_results <;> rw [hdr] at hrs hgd <;>
    simp only [DRField.getResults, Option.some.injEq, goodDR] at hrs hgd
  · subst hrs
    cases hr
  · cases hrs
  · subst hrs
    have := List.all_eq_true.mp hgd r hr
    simpa using this

theorem latestResults_good (items : List PBItem)
    (h : ∀ it ∈ items, goodDR it.district_results = true) :
    ∃ lr, latestResults items = .ok lr := by
  rcases items with _ | ⟨it, tl⟩
  · exact ⟨[], rfl⟩
  · have hgd := h it (List.mem_cons_self it tl)
    have hlc : latestResults (it :: tl) =
        (match it.district_results with
         | .absent => .ok []
         | .notList => .error .attrError
         | .list rs => .ok rs) := rfl
    cases hdr : it.district_results <;> rw [hdr] at hgd <;> rw [hlc, hdr]
    · exact ⟨[], rfl⟩
    · simp [goodDR] at hgd
    · exact ⟨_, rfl⟩

theorem metrics_with_data_ok (d : Option PBData × PBEnv)
    (hgood : ∀ b, d.1 = some b → goodBody b = true) :
    ∃ l, (metrics_with_data d).1 = .ok l := by
  rcases d with ⟨b?, env⟩
  cases b? with
  | none => exact ⟨[], rfl⟩
  | some data =>
      have hb := hgood data rfl
      rw [show metrics_with_data (some data, env) =
          if data.items.length < 2 then (.ok [], env)
          else metrics_sets (buildFailedSets data.items) data.items env from rfl]
      by_cases hlen : data.items.length < 2
      · rw [if_pos hlen]
        exact ⟨[], rfl⟩
      · rw [if_neg hlen]
        obtain ⟨fss, hfss⟩ := buildFailedSets_ok data.items (goodBody_cond data hb)
        rw [hfss]
        rw [show metrics_sets (.ok fss) data.items env =
            metrics_pick fss data.items env from rfl]
        rcases fss with _ | ⟨fs0, _ | ⟨fs1, fsr⟩⟩
        · exact ⟨[], rfl⟩
        · exact ⟨[], rfl⟩
        · rw [show metrics_pick (fs0 :: fs1 :: fsr) data.items env =
              metrics_report fs0 fs1 (latestResults data.items) env from rfl]
          obtain ⟨lr, hlr⟩ := latestResults_good data.items
            (fun it hit => List.all_eq_true.mp hb it hit)
          rw [hlr]
          exact ⟨_, rfl⟩

theorem check_district_metrics_ok (env : PBEnv) (url coll : String) (h : goodEnv env) :
    ∃ l, (check_district_metrics env url coll).1 = .ok l := by
  unfold check_district_metrics
  refine metrics_with_data_ok (pb_get env url) ?_
  intro b hb
  exact h b ((pb_get_consumes env url).2 b hb)

theorem scrapper_metrics_stage_ok (sc : ScrapperConfig) (name : String) (em : Int)
    (env : PBEnv) (now : Int) (h : goodEnv env) :
    ∃ r, (scrapper_metrics_stage sc name em env now).1 = .ok r := by
  unfold scrapper_metrics_stage
  by_cases ht : isTruthy sc.metrics_collection = true
  · rw [if_pos ht]
    obtain ⟨l, hl⟩ := check_district_metrics_ok env sc.pb_url (sc.metrics_collection.getD "") h
    rcases hcd : check_district_metrics env sc.pb_url (sc.metrics_collection.getD "")
      with ⟨res, env1⟩
    rw [hcd] at hl
    simp only at hl
    subst hl
    by_cases he : l.isEmpty
    · rw [show scrapper_metrics_stage.scrapper_metrics_result sc name em (.ok l, env1) now =
          if l.isEmpty then (.ok ⟨name, true, scrapperOkMsg em, now⟩, env1)
          else (.ok ⟨name, false,
            "연속 실패 구청: " ++ String.intercalate "; "
              (l.map (fun p => p.1 ++ "(" ++ strTake 50 p.2 ++ ")")), now⟩, env1) from rfl,
        if_pos he]
      exact ⟨_, rfl⟩
    · rw [show scrapper_metrics_stage.scrapper_metrics_result sc name em (.ok l, env1) now =
          if l.isEmpty then (.ok ⟨name, true, scrapperOkMsg em, now⟩, env1)
          else (.ok ⟨name, false,
            "연속 실패 구청: " ++ String.intercalate "; "
              (l.map (fun p => p.1 ++ "(" ++ strTake 50 p.2 ++ ")")), now⟩, env1) from rfl,
        if_neg he]
      exact ⟨_, rfl⟩
  · rw [if_neg ht]
    exact ⟨_, rfl⟩

theorem scrapper_error_time_ok (sc : ScrapperConfig) (name : String) (em : Int)
    (errItem : PBItem) (dt? : Option PBDateTime) (env : PBEnv) (now : Int) (h : goodEnv env) :
    ∃ r, (scrapper_error_time sc name em errItem dt? env now).1 = .ok r := by
  cases dt? with
  | none => exact scrapper_metrics_stage_ok sc name em env now h
  | some errDt =>
      rw [show scrapper_error_time sc name em errItem (some errDt) env now =
          if now - toEpochMicros errDt < 300 * 1000000 then
            (.ok ⟨name, false,
              "최근 에러: " ++ strTake 80 ((lookupField errItem "message").getD ""), now⟩, env)
          else scrapper_metrics_stage sc name em env now from rfl]
      by_cases hlt : now - toEpochMicros errDt < 300 * 1000000
      · rw [if_pos hlt]
        exact ⟨_, rfl⟩
      · rw [if_neg hlt]
        exact scrapper_metrics_stage_ok sc name em env now h

theorem scrapper_error_check_ok (sc : ScrapperConfig) (name : String) (em : Int)
    (d : Option PBData × PBEnv) (now : Int) (h : goodEnv d.2) :
    ∃ r, (scrapper_error_check sc name em d now).1 = .ok r := by
  rcases d with ⟨b?, env1⟩
  cases b? with
  | none => exact scrapper_metrics_stage_ok sc name em env1 now h
  | some errData =>
      rw [show scrapper_error_check sc name em (some errData, env1) now =
          scrapper_error_items sc name em errData.items env1 now from rfl]
      rcases errData.items with _ | ⟨errItem, tl⟩
      · exact scrapper_metrics_stage_ok sc name em env1 now h
      · exact scrapper_error_time_ok sc name em errItem _ env1 now h

theorem scrapper_status_stage_ok (sc : ScrapperConfig) (name : String) (latest : PBItem)
    (em : Int) (env : PBEnv) (now : Int) (h : goodEnv env) :
    ∃ r, (scrapper_status_stage sc name latest em env now).1 = .ok r := by
  unfold scrapper_status_stage
  by_cases h1 : isTruthy sc.status_field = true ∧
      lookupField latest (sc.status_field.getD "") = some "stopped"
  · rw [if_pos h1]
    exact ⟨_, rfl⟩
  · rw [if_neg h1]
    by_cases h2 : isTruthy sc.error_collection = true ∧ isTruthy sc.error_level_field = true
    · rw [if_pos h2]
      refine scrapper_error_check_ok sc name em (pb_get env sc.pb_url) now ?_
      exact goodEnv_of_suffix env _ h (pb_get_consumes env sc.pb_url).1
    · rw [if_neg h2]
      exact scrapper_metrics_stage_ok sc name em env now h

theorem scrapper_with_time_ok (sc : ScrapperConfig) (name : String) (latest : PBItem)
    (dt? : Option PBDateTime) (env : PBEnv) (config : Config) (now : Int) (h : goodEnv env) :
    ∃ r, (scrapper_with_time sc name latest dt? env config now).1 = .ok r := by
  cases dt? with
  | none => exact ⟨_, rfl⟩
  | some dt =>
      rw [show scrapper_with_time sc name latest (some dt) env config now =
          scrapper_fresh_check sc name latest (toEpochMicros dt) env config now from rfl]
      unfold scrapper_fresh_check
      by_cases hst : now - toEpochMicros dt > config.scrapper_timeout * 1000000
      · rw [if_pos hst]
        exact ⟨_, rfl⟩
      · rw [if_neg hst]
        exact scrapper_status_stage_ok sc name latest _ env now h

theorem check_scrapper_ok (service : Service) (env : PBEnv) (config : Config) (now : Int)
    (h : goodEnv env) : ∃ r, (check_scrapper service env config now).1 = .ok r := by
  unfold check_scrapper
  rcases service.scrapper with _ | sc
  · exact ⟨_, rfl⟩
  · show ∃ r, (scrapper_with_data sc service.name (pb_get env sc.pb_url) config now).1 = .ok r
    rcases hpb : pb_get env sc.pb_url with ⟨b?, env1⟩
    have hg1 : goodEnv env1 := by
      refine goodEnv_of_suffix env env1 h ?_
      have := (pb_get_consumes env sc.pb_url).1
      rw [hpb] at this
      exact this
    cases b? with
    | none => exact ⟨_, rfl⟩
    | some data =>
        rw [show scrapper_with_data sc service.name (some data, env1) config now =
            scrapper_items sc service.name data.items env1 config now from rfl]
        rcases data.items with _ | ⟨latest, tl⟩
        · exact ⟨_, rfl⟩
        · rw [show scrapper_items sc service.name (latest :: tl) env1 config now =
              scrapper_with_latest sc service.name latest env1 config now from rfl]
          exact scrapper_with_time_ok sc service.name latest _ env1 config now hg1

/-- C6 (amended): for every service descriptor and every backend behaviour
whose successful response bodies are well-formed (each `district_results`
value absent or a list whose failing entries carry a district id),
`check_service` returns a probe result and raises nothing; an unknown check
kind yields a failure result naming the unrecognized kind.  (Without the
well-formedness condition the code can raise: see the counterexample.) -/
theorem check_service_total (service : Service) (resp : HttpResp) (env : PBEnv)
    (config : Config) (now : Int) (h : goodEnv env) :
    (∃ r, (check_service service resp env config now).1 = .ok r) ∧
    (∀ tag, service.check_type = .other tag →
      (check_service service resp env config now).1 =
        .ok ⟨service.name, false, "알 수 없는 체크 유형: " ++ tag, now⟩) := by
  constructor
  · unfold check_service
    rcases service.check_type with _ | _ | _ | tag
    · exact ⟨_, rfl⟩
    · exact ⟨_, rfl⟩
    · exact check_scrapper_ok service env config now h
    · exact ⟨_, rfl⟩
  · intro tag htag
    unfold check_service
    rw [htag]

/-- C6 counterexample: a metrics snapshot entry with `success: false` and no
`district` key makes `check_service` raise a `KeyError` that escapes the
engine (the claim says it never raises). -/
theorem check_service_raises :
    (check_service
        ⟨"svc", CheckType.scrapper, "https://x",  "",
          some ⟨"https://x", "scraper_log", "logged_at", none, none, none, some "m"⟩⟩
        (HttpResp.status 200)
        ⟨fun _ => some "tok", [],
          [GetOutcome.ok ⟨[⟨[("logged_at", "2026-02-08 12:00:00")], DRField.absent⟩]⟩,
           GetOutcome.ok ⟨[⟨[], DRField.list [⟨none, some false, none⟩]⟩,
             ⟨[], DRField.list []⟩]⟩]⟩
        ⟨1800, 2⟩
        (toEpochMicros ⟨2026, 2, 8, 12, 1, 0, 0, some 540⟩)).1
      = .error (.keyError "district") := by
  rfl

/-- Witness for `check_service_total`: an unknown check kind yields the
failure result naming it, with no backend traffic at all. -/
theorem check_service_total_witness :
    (check_service ⟨"svc", CheckType.other "weird", "https://u", "", none⟩
        (HttpResp.status 200) ⟨fun _ => none, [], []⟩ ⟨1800, 2⟩ 0).1
      = .ok ⟨"svc", false, "알 수 없는 체크 유형: " ++ "weird", 0⟩ :=
  (check_service_total ⟨"svc", CheckType.other "weird", "https://u", "", none⟩
    (HttpResp.status 200) ⟨fun _ => none, [], []⟩ ⟨1800, 2⟩ 0
    (fun b hb => absurd hb (List.not_mem_nil _))).2 "weird" rfl

theorem readDigitsAux_shape (n : Nat) :
    ∀ (acc : Nat) (cs : List Char) (v : Nat) (rest : List Char),
      readDigitsAux n acc cs = some (v, rest) →
      ∃ pre, cs = pre ++ rest ∧ pre.length = n ∧ ∀ c ∈ pre, c.isDigit = true := by
  induction n with
  | zero =>
      intro acc cs v rest h
      simp only [readDigitsAux, Option.some.injEq, Prod.mk.injEq] at h
      exact ⟨[], by simp [h.2], rfl, by simp⟩
  | succ n ih =>
      intro acc cs v rest h
      rcases cs with _ | ⟨c, cs'⟩
      · simp [readDigitsAux] at h
      · simp only [readDigitsAux] at h
        by_cases hd : c.isDigit = true
        · rw [if_pos hd] at h
          obtain ⟨pre, hpre, hlen, hdig⟩ := ih _ cs' v rest h
          refine ⟨c :: pre, by rw [hpre]; rfl, by simp [hlen], ?_⟩
          intro x hx
          rcases List.mem_cons.mp hx with rfl | hx2
          · exact hd
          · exact hdig x hx2
        · rw [if_neg hd] at h
          cases h

theorem readDigits_shape (n : Nat) (cs : List Char) (v : Nat) (rest : List Char)
    (h : readDigits n cs = some (v, rest)) :
    ∃ pre, cs = pre ++ rest ∧ pre.length = n ∧ ∀ c ∈ pre, c.isDigit = true :=
  readDigitsAux_shape n 0 cs v rest h

theorem expectChar_shape (c : Char) (cs rest : List Char)
    (h : expectChar c cs = some rest) : cs = c :: rest := by
  rcases cs with _ | ⟨x, xs⟩
  · simp [expectChar] at h
  · simp only [expectChar] at h
    by_cases hx : x = c
    · rw [if_pos hx] at h
      obtain rfl := Option.some.inj h
      rw [hx]
    · rw [if_neg hx] at h
      cases h

theorem readFracAux_shape (b : Nat) :
    ∀ (acc count : Nat) (cs : List Char) (v k : Nat) (rest : List Char),
      readFracAux b acc count cs = (v, k, rest) →
      ∃ pre, cs = pre ++ rest ∧ k = count + pre.length ∧ ∀ c ∈ pre, c.isDigit = true := by
  induction b with
  | zero =>
      intro acc count cs v k rest h
      simp only [readFracAux, Prod.mk.injEq] at h
      exact ⟨[], by simp [h.2.2], by simp [h.2.1], by simp⟩
  | succ b ih =>
      intro acc count cs v k rest h
      rcases cs with _ | ⟨c, cs'⟩
      · simp only [readFracAux, Prod.mk.injEq] at h
        exact ⟨[], by simp [h.2.2], by simp [h.2.1], by simp⟩
      · simp only [readFracAux] at h
        by_cases hd : c.isDigit = true
        · rw [if_pos hd] at h
          obtain ⟨pre, hpre, hk, hdig⟩ := ih _ _ cs' v k rest h
          refine ⟨c :: pre, by rw [hpre]; rfl, by simp [hk]; omega, ?_⟩
          intro x hx
          rcases List.mem_cons.mp hx with rfl | hx2
          · exact hd
          · exact hdig x hx2
        · rw [if_neg hd] at h
          simp only [Prod.mk.injEq] at h
          obtain ⟨-, hk2, hr2⟩ := h
          exact ⟨[], by simp [hr2.symm], by simp [hk2.symm], by simp⟩

theorem readFrac_shape (cs : List Char) (v : Nat) (rest : List Char)
    (h : readFrac cs = some (v, rest)) :
    ∃ pre, cs = pre ++ rest ∧ 1 ≤ pre.length ∧ ∀ c ∈ pre, c.isDigit = true := by
  unfold readFrac at h
  rcases hfa : readFracAux 6 0 0 cs with ⟨v0, k0, rest0⟩
  rw [hfa] at h
  cases k0 with
  | zero => simp at h
  | succ k1 =>
      simp only [Option.some.injEq, Prod.mk.injEq] at h
      obtain ⟨pre, hpre, hk, hdig⟩ := readFracAux_shape 6 0 0 cs v0 (k1 + 1) rest0 hfa
      refine ⟨pre, ?_, by omega, hdig⟩
      rw [hpre, h.2]

set_option maxHeartbeats 1600000 in
theorem readStamp_shape (sep : Char) (wf : Bool) (cs : List Char) (dt : PBDateTime)
    (rest : List Char) (h : readStamp sep wf cs = some (dt, rest)) :
    ∃ pre, cs = pre ++ rest ∧ 8 ≤ pre.length ∧ dt.offset = none := by
  unfold readStamp at h
  rcases h1 : readDigits 4 cs with _ | ⟨y, r1⟩ <;> rw [h1] at h
  · simp only [Option.bind_eq_bind, Option.none_bind] at h
    exact Option.noConfusion h
  simp only [Option.bind_eq_bind, Option.some_bind] at h
  rcases h2 : expectChar '-' r1 with _ | r2 <;> rw [h2] at h
  · simp only [Option.bind_eq_bind, Option.none_bind] at h
    exact Option.noConfusion h
  simp only [Option.bind_eq_bind, Option.some_bind] at h
  rcases h3 : readDigits 2 r2 with _ | ⟨mo, r3⟩ <;> rw [h3] at h
  · simp only [Option.bind_eq_bind, Option.none_bind] at h
    exact Option.noConfusion h
  simp only [Option.bind_eq_bind, Option.some_bind] at h
  rcases h4 : expectChar '-' r3 with _ | r4 <;> rw [h4] at h
  · simp only [Option.bind_eq_bind, Option.none_bind] at h
    exact Option.noConfusion h
  simp only [Option.bind_eq_bind, Option.some_bind] at h
  rcases h5 : readDigits 2 r4 with _ | ⟨d, r5⟩ <;> rw [h5] at h
  · simp only [Option.bind_eq_bind, Option.none_bind] at h
    exact Option.noConfusion h
  simp only [Option.bind_eq_bind, Option.some_bind] at h
  rcases h6 : expectChar sep r5 with _ | r6 <;> rw [h6] at h
  · simp only [Option.bind_eq_bind, Option.none_bind] at h
    exact Option.noConfusion h
  simp only [Option.bind_eq_bind, Option.some_bind] at h
  rcases h7 : readDigits 2 r6 with _ | ⟨hh, r7⟩ <;> rw [h7] at h
  · simp only [Option.bind_eq_bind, Option.none_bind] at h
    exact Option.noConfusion h
  simp only [Option.bind_eq_bind, Option.some_bind] at h
  rcases h8 : expectChar ':' r7 with _ | r8 <;> rw [h8] at h
  · simp only [Option.bind_eq_bind, Option.none_bind] at h
    exact Option.noConfusion h
  simp only [Option.bind_eq_bind, Option.some_bind] at h
  rcases h9 : readDigits 2 r8 with _ | ⟨mi, r9⟩ <;> rw [h9] at h
  · simp only [Option.bind_eq_bind, Option.none_bind] at h
    exact Option.noConfusion h
  simp only [Option.bind_eq_bind, Option.some_bind] at h
  rcases h10 : expectChar ':' r9 with _ | r10 <;> rw [h10] at h
  · simp only [Option.bind_eq_bind, Option.none_bind] at h
    exact Option.noConfusion h
  simp only [Option.bind_eq_bind, Option.some_bind] at h
  rcases h11 : readDigits 2 r10 with _ | ⟨sec, r11⟩ <;> rw [h11] at h
  · simp only [Option.bind_eq_bind, Option.none_bind] at h
    exact Option.noConfusion h
  simp only [Option.bind_eq_bind, Option.some_bind] at h
  obtain ⟨p1, hp1, hl1, -⟩ := readDigits_shape 4 cs y r1 h1
  obtain ⟨p2, hp2, hl2, -⟩ := readDigits_shape 2 r2 mo r3 h3
  obtain ⟨p3, hp3, hl3, -⟩ := readDigits_shape 2 r4 d r5 h5
  have he2 := expectChar_shape '-' r1 r2 h2
  have he4 := expectChar_shape '-' r3 r4 h4
  have he6 := expectChar_shape sep r5 r6 h6
  obtain ⟨p6, hp6, hl6, -⟩ := readDigits_shape 2 r10 sec r11 h11
  obtain ⟨p5, hp5, hl5, -⟩ := readDigits_shape 2 r8 mi r9 h9
  obtain ⟨p4, hp4, hl4, -⟩ := readDigits_shape 2 r6 hh r7 h7
  have he8 := expectChar_shape ':' r7 r8 h8
  have he10 := expectChar_shape ':' r9 r10 h10
  cases wf with
  | false =>
      simp only [Bool.false_eq_true, if_false, Option.pure_def, Option.some_bind] at h
      by_cases hv : validDT y mo d hh mi sec = true
      · rw [if_pos hv] at h
        simp only [Option.pure_def, Option.some.injEq, Prod.mk.injEq] at h
        obtain ⟨hdt, hrest⟩ := h
        subst hrest
        refine ⟨p1 ++ '-' :: (p2 ++ '-' :: (p3 ++ sep ::
            (p4 ++ ':' :: (p5 ++ ':' :: p6)))), ?_, ?_, ?_⟩
        · rw [hp1, he2, hp2, he4, hp3, he6, hp4, he8, hp5, he10, hp6]
          simp
        · simp only [List.length_append, List.length_cons, hl1, hl2, hl3]
          omega
        · rw [← hdt]
      · rw [if_neg hv] at h
        cases h
  | true =>
      simp only [if_true] at h
      rcases ha : expectChar '.' r11 with _ | ra <;> rw [ha] at h
      · simp only [Option.bind_eq_bind, Option.none_bind] at h
        exact Option.noConfusion h
      simp only [Option.bind_eq_bind, Option.some_bind] at h
      rcases hf : readFrac ra with _ | ⟨mic, r12⟩ <;> rw [hf] at h
      · simp only [Option.bind_eq_bind, Option.none_bind] at h
        exact Option.noConfusion h
      simp only [Option.bind_eq_bind, Option.some_bind] at h
      by_cases hv : validDT y mo d hh mi sec = true
      · rw [if_pos hv] at h
        simp only [Option.pure_def, Option.some.injEq, Prod.mk.injEq] at h
        obtain ⟨hdt, hrest⟩ := h
        subst hrest
        obtain ⟨pf, hpf, hlf, -⟩ := readFrac_shape ra mic r12 hf
        have hea := expectChar_shape '.' r11 ra ha
        refine ⟨p1 ++ '-' :: (p2 ++ '-' :: (p3 ++ sep ::
            (p4 ++ ':' :: (p5 ++ ':' :: (p6 ++ '.' :: pf))))), ?_, ?_, ?_⟩
        · rw [hp1, he2, hp2, he4, hp3, he6, hp4, he8, hp5, he10, hp6, hea, hpf]
          simp
        · simp only [List.length_append, List.length_cons, hl1, hl2, hl3]
          omega
        · rw [← hdt]
      · rw [if_neg hv] at h
        cases h

theorem readOffsetMM_shape (sign : Int) (hh : Nat) (cs : List Char) (off : Int)
    (h : readOffsetMM sign hh cs = some (off, [])) :
    ∃ a b, cs = [a, b] ∧ b.isDigit = true := by
  unfold readOffsetMM at h
  rcases hd : readDigits 2 cs with _ | ⟨mm, rest3⟩ <;> rw [hd] at h
  · cases h
  · have h2 : (if hh ≤ 23 ∧ mm ≤ 59 then
        some (sign * ((hh : Int) * 60 + mm), rest3) else none) = some (off, []) := h
    by_cases hr : hh ≤ 23 ∧ mm ≤ 59
    · rw [if_pos hr] at h2
      simp only [Option.some.injEq, Prod.mk.injEq] at h2
      obtain ⟨-, hrest⟩ := h2
      subst hrest
      obtain ⟨pre, hpre, hlen, hdig⟩ := readDigits_shape 2 cs mm [] hd
      rcases pre with _ | ⟨a, _ | ⟨b, _ | _⟩⟩ <;> simp at hlen
      refine ⟨a, b, by simpa using hpre, hdig b (by simp)⟩
    · rw [if_neg hr] at h2
      cases h2

theorem readOffset_shape (cs : List Char) (off : Int)
    (h : readOffset cs = some (off, [])) :
    (cs = ['Z'] ∧ off = 0) ∨
    ((∃ c, cs.head? = some c ∧ (c = '+' ∨ c = '-')) ∧
     (∃ d, cs.getLast? = some d ∧ d.isDigit = true)) := by
  rcases cs with _ | ⟨c, cs'⟩
  · cases h
  · have h1 : (if c = 'Z' then some ((0 : Int), cs')
        else if c = '+' ∨ c = '-' then
          match readDigits 2 cs' with
          | none => none
          | some (hh, rest) =>
            match rest with
            | c2 :: rest2 =>
                if c2 = ':' then readOffsetMM (if c = '+' then 1 else -1) hh rest2
                else readOffsetMM (if c = '+' then 1 else -1) hh rest
            | [] => readOffsetMM (if c = '+' then 1 else -1) hh rest
        else none) = some (off, []) := h
    by_cases hz : c = 'Z'
    · rw [if_pos hz] at h1
      simp only [Option.some.injEq, Prod.mk.injEq] at h1
      obtain ⟨hoff, hrest⟩ := h1
      subst hrest
      exact Or.inl ⟨by rw [hz], hoff.symm⟩
    · rw [if_neg hz] at h1
      by_cases hpm : c = '+' ∨ c = '-'
      · rw [if_pos hpm] at h1
        rcases hd : readDigits 2 cs' with _ | ⟨hh, rest⟩ <;> rw [hd] at h1
        · cases h1
        · obtain ⟨hpre, hpreEq, hpreLen, -⟩ := readDigits_shape 2 cs' hh rest hd
          refine Or.inr ⟨⟨c, rfl, hpm⟩, ?_⟩
          rcases rest with _ | ⟨c2, rest2⟩
          · have h2 : readOffsetMM (if c = '+' then 1 else -1) hh [] = some (off, []) := h1
            obtain ⟨a, b, hab, hbd⟩ := readOffsetMM_shape _ hh [] off h2
            cases hab
          · have h2 : (if c2 = ':' then readOffsetMM (if c = '+' then 1 else -1) hh rest2
                else readOffsetMM (if c = '+' then 1 else -1) hh (c2 :: rest2))
                = some (off, []) := h1
            by_cases hc2 : c2 = ':'
            · rw [if_pos hc2] at h2
              obtain ⟨a, b, hab, hbd⟩ := readOffsetMM_shape _ hh rest2 off h2
              refine ⟨b, ?_, hbd⟩
              rw [hpreEq, hab]
              rw [show (c :: (hpre ++ c2 :: [a, b])) = (c :: hpre ++ [c2, a]) ++ [b] by simp]
              exact List.getLast?_concat _
            · rw [if_neg hc2] at h2
              obtain ⟨a, b, hab, hbd⟩ := readOffsetMM_shape _ hh (c2 :: rest2) off h2
              refine ⟨b, ?_, hbd⟩
              rw [hpreEq, hab]
              rw [show (c :: (hpre ++ [a, b])) = (c :: hpre ++ [a]) ++ [b] by simp]
              exact List.getLast?_concat _
      · rw [if_neg hpm] at h1
        cases h1

theorem orElse_cases {α : Type} (a b : Option α) (v : α) (h : (a <|> b) = some v) :
    a = some v ∨ (a = none ∧ b = some v) := by
  rcases a with _ | x
  · simp at h
    exact Or.inr ⟨rfl, h⟩
  · simp at h
    exact Or.inl (by rw [h])

theorem parseFormat_withZ (sep : Char) (wf : Bool) (s : String) (dt : PBDateTime)
    (h : parseFormat sep wf true false s = some dt) :
    s.data.getLast? = some 'Z' ∧ dt.offset = none := by
  unfold parseFormat at h
  rcases hst : readStamp sep wf s.data with _ | ⟨dt0, r⟩ <;> rw [hst] at h
  · simp only [Option.bind_eq_bind, Option.none_bind] at h
    exact Option.noConfusion h
  · simp only [Option.bind_eq_bind, Option.some_bind] at h
    have h2 : (match expectChar 'Z' r with
        | some [] => (pure dt0 : Option PBDateTime)
        | _ => none) = some dt := h
    rcases he : expectChar 'Z' r with _ | r2 <;> rw [he] at h2
    · cases h2
    · rcases r2 with _ | ⟨x, xs⟩
      · have h3 : (pure dt0 : Option PBDateTime) = some dt := h2
        simp only [Option.pure_def, Option.some.injEq] at h3
        subst h3
        obtain ⟨pre, hp, hlen, hoff⟩ := readStamp_shape sep wf s.data dt0 r hst
        have hr := expectChar_shape 'Z' r [] he
        refine ⟨?_, hoff⟩
        rw [show s.data = s.data from rfl, hp, hr]
        exact List.getLast?_concat _
      · have h3 : (none : Option PBDateTime) = some dt := h2
        cases h3

theorem parseFormat_plain (sep : Char) (wf : Bool) (s : String) (dt : PBDateTime)
    (h : parseFormat sep wf false false s = some dt) : dt.offset = none := by
  unfold parseFormat at h
  rcases hst : readStamp sep wf s.data with _ | ⟨dt0, r⟩ <;> rw [hst] at h
  · simp only [Option.bind_eq_bind, Option.none_bind] at h
    exact Option.noConfusion h
  · simp only [Option.bind_eq_bind, Option.some_bind] at h
    rcases r with _ | ⟨x, xs⟩
    · have h3 : (pure dt0 : Option PBDateTime) = some dt := h
      simp only [Option.pure_def, Option.some.injEq] at h3
      subst h3
      obtain ⟨pre, hp, hlen, hoff⟩ := readStamp_shape sep wf s.data dt0 [] hst
      exact hoff
    · have h3 : (none : Option PBDateTime) = some dt := h
      cases h3

theorem parseFormat_withOff (sep : Char) (wf : Bool) (s : String) (dt : PBDateTime)
    (h : parseFormat sep wf false true s = some dt) :
    ∃ off, dt.offset = some off ∧
      ((s.data.getLast? = some 'Z' ∧ off = 0) ∨
       ((∃ k ∈ s.data.drop 8, (k = '+' ∨ k = '-')) ∧
        (∃ d2, s.data.getLast? = some d2 ∧ d2.isDigit = true))) := by
  unfold parseFormat at h
  rcases hst : readStamp sep wf s.data with _ | ⟨dt0, r⟩ <;> rw [hst] at h
  · simp only [Option.bind_eq_bind, Option.none_bind] at h
    exact Option.noConfusion h
  · simp only [Option.bind_eq_bind, Option.some_bind] at h
    have h2 : (match readOffset r with
        | some (off, []) => (pure { dt0 with offset := some off } : Option PBDateTime)
        | _ => none) = some dt := h
    rcases ho : readOffset r with _ | ⟨off, rr⟩ <;> rw [ho] at h2
    · cases h2
    · rcases rr with _ | ⟨x, xs⟩
      · have h3 : (pure { dt0 with offset := some off } : Option PBDateTime) = some dt := h2
        simp only [Option.pure_def, Option.some.injEq] at h3
        subst h3
        obtain ⟨pre, hp, hlen, -⟩ := readStamp_shape sep wf s.data dt0 r hst
        refine ⟨off, rfl, ?_⟩
        rcases readOffset_shape r off ho with ⟨hr, hoff⟩ | ⟨⟨c, hhead, hc⟩, ⟨d2, hd2, hdig⟩⟩
        · refine Or.inl ⟨?_, hoff⟩
          rw [hp, hr]
          exact List.getLast?_concat _
        · rcases r with _ | ⟨c0, r0⟩
          · cases hhead
          · have hc0 : c0 = c := by
              simpa using hhead
            subst hc0
            refine Or.inr ⟨⟨c0, ?_, hc⟩, ⟨d2, ?_, hdig⟩⟩
            · rw [hp, List.drop_append_of_le_length (by omega)]
              exact List.mem_append_right _ (List.mem_cons_self _ _)
            · rw [hp, List.getLast?_append, hd2]
              rfl
      · have h3 : (none : Option PBDateTime) = some dt := h2
        cases h3

theorem finalizeTZ_offset (endsZ : Bool) (dt0 : PBDateTime) :
    (finalizeTZ endsZ dt0).offset =
      match dt0.offset with
      | some o => some o
      | none => if endsZ then some 0 else some 540 := by
  unfold finalizeTZ
  cases h : dt0.offset with
  | none => cases endsZ <;> rfl
  | some o => exact h

/-- C8: the time parser returns an absolute instant with the zone policy of
`_parse_pb_time`: a parsed string ending in `Z` is tagged UTC (offset 0); a
parsed string with no `Z` suffix and no `+`/`-` offset sign is tagged as the
fixed local monitoring zone KST (UTC+9, offset 540 minutes); and when no
format matches (the parser returns `none`), the deep-health caller turns it
into a failed probe result with the `파싱 실패` diagnostic message instead of
raising. -/
theorem parse_time_zone_policy :
    (∀ s dt, parse_pb_time s = some dt → s.data.getLast? = some 'Z' →
       dt.offset = some 0) ∧
    (∀ s dt, parse_pb_time s = some dt → s.data.getLast? ≠ some 'Z' →
       (∀ k ∈ s.data.drop 8, k ≠ '+' ∧ k ≠ '-') → dt.offset = some 540) ∧
    (∀ sc name latest env config now,
       parse_pb_time ((lookupField latest sc.time_field).getD "") = none →
       (scrapper_with_latest sc name latest env config now).1 =
         .ok ⟨name, false, sc.time_field ++ " 파싱 실패", now⟩) := by
  have hsplit : ∀ s dt, parse_pb_time s = some dt →
      ∃ dt0, dt = finalizeTZ (s.data.getLast? == some 'Z') dt0 ∧
        (parseFormat ' ' true true false s = some dt0 ∨
         parseFormat ' ' false true false s = some dt0 ∨
         parseFormat ' ' true false false s = some dt0 ∨
         parseFormat ' ' false false false s = some dt0 ∨
         parseFormat 'T' true false true s = some dt0 ∨
         parseFormat 'T' false false true s = some dt0) := by
    intro s dt h
    unfold parse_pb_time at h
    by_cases hs : s = ""
    · rw [if_pos hs] at h
      cases h
    · rw [if_neg hs] at h
      obtain ⟨dt0, hchain, hfin⟩ := Option.map_eq_some'.mp h
      refine ⟨dt0, hfin.symm, ?_⟩
      rcases orElse_cases _ _ _ hchain with h1 | ⟨-, hchain⟩
      · exact Or.inl h1
      rcases orElse_cases _ _ _ hchain with h2 | ⟨-, hchain⟩
      · exact Or.inr (Or.inl h2)
      rcases orElse_cases _ _ _ hchain with h3 | ⟨-, hchain⟩
      · exact Or.inr (Or.inr (Or.inl h3))
      rcases orElse_cases _ _ _ hchain with h4 | ⟨-, hchain⟩
      · exact Or.inr (Or.inr (Or.inr (Or.inl h4)))
      rcases orElse_cases _ _ _ hchain with h5 | ⟨-, hchain⟩
      · exact Or.inr (Or.inr (Or.inr (Or.inr (Or.inl h5))))
      exact Or.inr (Or.inr (Or.inr (Or.inr (Or.inr hchain))))
  refine ⟨?_, ?_, ?_⟩
  · intro s dt h hZ
    obtain ⟨dt0, hdt, hcases⟩ := hsplit s dt h
    have hends : (s.data.getLast? == some 'Z') = true := by
      simp [hZ]
    rw [hdt, finalizeTZ_offset, hends]
    rcases hcases with h1 | h2 | h3 | h4 | h5 | h6
    · rw [(parseFormat_withZ _ _ _ _ h1).2]
      rfl
    · rw [(parseFormat_withZ _ _ _ _ h2).2]
      rfl
    · rw [parseFormat_plain _ _ _ _ h3]
      rfl
    · rw [parseFormat_plain _ _ _ _ h4]
      rfl
    · obtain ⟨off, hoff, hsh⟩ := parseFormat_withOff _ _ _ _ h5
      rcases hsh with ⟨-, rfl⟩ | ⟨-, ⟨d2, hd2, hdig⟩⟩
      · rw [hoff]
      · rw [hZ] at hd2
        obtain rfl := Option.some.inj hd2
        exact absurd hdig (by decide)
    · obtain ⟨off, hoff, hsh⟩ := parseFormat_withOff _ _ _ _ h6
      rcases hsh with ⟨-, rfl⟩ | ⟨-, ⟨d2, hd2, hdig⟩⟩
      · rw [hoff]
      · rw [hZ] at hd2
        obtain rfl := Option.some.inj hd2
        exact absurd hdig (by decide)
  · intro s dt h hnz hnpm
    obtain ⟨dt0, hdt, hcases⟩ := hsplit s dt h
    have hends : (s.data.getLast? == some 'Z') = false := by
      simpa using hnz
    rw [hdt, finalizeTZ_offset, hends]
    rcases hcases with h1 | h2 | h3 | h4 | h5 | h6
    · exact absurd (parseFormat_withZ _ _ _ _ h1).1 hnz
    · exact absurd (parseFormat_withZ _ _ _ _ h2).1 hnz
    · rw [parseFormat_plain _ _ _ _ h3]
      rfl
    · rw [parseFormat_plain _ _ _ _ h4]
      rfl
    · obtain ⟨off, hoff, hsh⟩ := parseFormat_withOff _ _ _ _ h5
      rcases hsh with ⟨hz, -⟩ | ⟨⟨k, hk, hkpm⟩, -⟩
      · exact absurd hz hnz
      · exact absurd hkpm (by
          obtain ⟨hk1, hk2⟩ := hnpm k hk
          rintro (rfl | rfl)
          · exact hk1 rfl
          · exact hk2 rfl)
    · obtain ⟨off, hoff, hsh⟩ := parseFormat_withOff _ _ _ _ h6
      rcases hsh with ⟨hz, -⟩ | ⟨⟨k, hk, hkpm⟩, -⟩
      · exact absurd hz hnz
      · exact absurd hkpm (by
          obtain ⟨hk1, hk2⟩ := hnpm k hk
          rintro (rfl | rfl)
          · exact hk1 rfl
          · exact hk2 rfl)
  · intro sc name latest env config now hp
    unfold scrapper_with_latest
    rw [hp]
    rfl

/-- Witness for `parse_time_zone_policy`: a `Z`-suffixed stamp parses as
UTC, a naive stamp parses as KST. -/
theorem parse_time_zone_policy_witness :
    (parse_pb_time "2026-02-08 09:59:47Z").map (fun dt => dt.offset) = some (some 0) ∧
    (parse_pb_time "2026-02-08 19:01:33").map (fun dt => dt.offset) = some (some 540) := by
  constructor
  · rcases hp : parse_pb_time "2026-02-08 09:59:47Z" with _ | dt
    · exact absurd hp (by decide)
    · rw [Option.map_some']
      rw [parse_time_zone_policy.1 _ dt hp (by decide)]
  · rcases hp : parse_pb_time "2026-02-08 19:01:33" with _ | dt
    · exact absurd hp (by decide)
    · rw [Option.map_some']
      rw [parse_time_zone_policy.2.1 _ dt hp (by decide) (by decide)]

/-- C9: staleness reporting of the deep-health check (src/checker.py lines
157-167): when the latest record's timestamp parses and the elapsed time
since it exceeds the configured timeout, `check_scrapper` fails with a
message reporting the elapsed whole minutes (elapsed seconds divided by 60,
rounded down) and the last-seen KST wall-clock time. -/
theorem scrapper_staleness_report (service : Service) (sc : ScrapperConfig)
    (env : PBEnv) (config : Config) (now : Int) (data : PBData) (latest : PBItem)
    (rest : List PBItem) (dt : PBDateTime)
    (hsc : service.scrapper = some sc)
    (hget : (pb_get env sc.pb_url).1 = some data)
    (hitems : data.items = latest :: rest)
    (hparse : parse_pb_time ((lookupField latest sc.time_field).getD "") = some dt)
    (hstale : now - toEpochMicros dt > config.scrapper_timeout * 1000000) :
    (check_scrapper service env config now).1 =
      .ok ⟨service.name, false,
        "무응답 " ++ toString ((now - toEpochMicros dt).fdiv 60000000) ++
          "분 (마지막: " ++ hmKST (toEpochMicros dt) ++ ")", now⟩ := by
  unfold check_scrapper
  rw [hsc]
  show (scrapper_with_data sc service.name (pb_get env sc.pb_url) config now).1 = _
  rcases hg : pb_get env sc.pb_url with ⟨d0, env1⟩
  rw [hg] at hget
  have hd : d0 = some data := hget
  subst hd
  show (scrapper_items sc service.name data.items env1 config now).1 = _
  rw [hitems]
  show (scrapper_with_latest sc service.name latest env1 config now).1 = _
  unfold scrapper_with_latest
  rw [hparse]
  show (scrapper_fresh_check sc service.name latest (toEpochMicros dt) env1 config now).1 = _
  simp only [scrapper_fresh_check]
  rw [if_pos hstale]

def c9sc : ScrapperConfig :=
  { pb_url := "pb", collection := "logs", time_field := "created" }

def c9latest : PBItem := ⟨[("created", "2026-02-08 12:00:00")], .absent⟩

def c9svc : Service :=
  { name := "scraper", check_type := .scrapper, url := "", scrapper := some c9sc }

def c9env : PBEnv :=
  { tokens := fun _ => some "tok", auths := [], gets := [.ok ⟨[c9latest]⟩] }

def c9dt : PBDateTime := ⟨2026, 2, 8, 12, 0, 0, 0, some 540⟩

def c9now : Int := toEpochMicros c9dt + 2000 * 1000000

/-- Witness for `scrapper_staleness_report`: with the default timeout of
1800 seconds and a record 2000 seconds old, the check fails reporting 33
elapsed minutes. -/
theorem scrapper_staleness_report_witness :
    (check_scrapper c9svc c9env {} c9now).1 =
      .ok ⟨"scraper", false, "무응답 33분 (마지막: 12:00)", c9now⟩ := by
  have h := scrapper_staleness_report c9svc c9sc c9env {} c9now ⟨[c9latest]⟩ c9latest
    [] c9dt rfl rfl rfl (by rfl) (by decide)
  rw [h]
  rfl
